import Mathlib

/-!
# Auction game engine (`src/src/Game.jsx`, `GameProvider`)

A shallow embedding of the state container of the two-team trivia auction game.
The provider holds eleven `useState` cells; they are collected in `State` and
every action of the context (`updateTeamScore`, `startGame`, `pickCategory`,
`togglePowerUp`, `initiateAuction`, `raiseBid`, `withdraw`, `startChallenge`,
`finalizeChallenge`, `resetGame`) becomes a function on `State`.

Modelling conventions.

* One action runs per render, so the values an action reads from its closure
  and the `prev` values handed to functional updaters are the same state.
* JavaScript numbers are modelled as `Int` (exact integer arithmetic).
* `teams` is created with exactly two entries and is only ever replaced by a
  `map` over itself or by a two-element literal, so it is a record of two
  teams; `Teams.map` passes the array index (0, 1) along with each team.
* `Set<string>` is an insertion-ordered list without duplicates (`setAdd`).
* `TIMER_CONFIG` lives in `./constants`, which is not part of the sources; it
  is a parameter of `startChallenge`.
-/

namespace AuctionGame

/-- Enum `GamePhase` (imported from `./types`; the six members used by the provider). -/
inductive GamePhase where
  | SETUP
  | DRAFT
  | BOARD
  | AUCTION
  | CHALLENGE
  | FINALE
deriving DecidableEq, Repr

/-- The union type `'double' | 'block'`. -/
inductive PowerUp where
  | double
  | block
deriving DecidableEq, Repr

/-- The `inventory` object of a team. -/
structure Inventory where
  double : Int
  block : Int
deriving DecidableEq, Repr

/-- Property read `inventory[type]`. -/
def Inventory.get (inv : Inventory) : PowerUp → Int
  | .double => inv.double
  | .block => inv.block

/-- Object spread with one computed key: `{ ...inventory, [type]: v }`. -/
def Inventory.set (inv : Inventory) (p : PowerUp) (v : Int) : Inventory :=
  match p with
  | .double => { inv with double := v }
  | .block => { inv with block := v }

/-- One entry of the `teams` array. -/
structure Team where
  name : String
  score : Int
  color : String
  borderColor : String
  shadowColor : String
  inventory : Inventory
deriving DecidableEq, Repr

/-- The two-element `teams` array. -/
structure Teams where
  team0 : Team
  team1 : Team
deriving DecidableEq, Repr

/-- Array read `teams[i]`; `none` stands for `undefined`. -/
def Teams.get? (ts : Teams) (i : Int) : Option Team :=
  if i = 0 then some ts.team0 else if i = 1 then some ts.team1 else none

/-- Array map with index, `teams.map((t, i) => f(t, i))`. -/
def Teams.map (ts : Teams) (f : Team → Int → Team) : Teams :=
  { team0 := f ts.team0 0, team1 := f ts.team1 1 }

/-- Type `Category`: `{ id, name }`. -/
structure Category where
  id : String
  name : String
deriving DecidableEq, Repr

/-- Type `SelectedCategory`: a category with the index of the team that drafted it. -/
structure SelectedCategory extends Category where
  ownerIndex : Int
deriving DecidableEq, Repr

/-- Type `AuctionState`, with the fields written by `initiateAuction`. -/
structure AuctionState where
  categoryId : String
  categoryName : String
  basePoints : Int
  points : Int
  currentBid : Int
  activeBidderIndex : Int
  lastBidderIndex : Option Int
  withdrawnIndices : List Int
  winnerIndex : Option Int
  missionText : String
  isDoubled : Bool
  isBlocked : Bool
  powerUpOwnerIndex : Option Int
  categoryOwnerIndex : Int
deriving DecidableEq, Repr

/-- The eleven state cells of `GameProvider`. -/
structure State where
  phase : GamePhase
  teams : Teams
  activeTeamIndex : Int
  selectedCategories : List SelectedCategory
  answeredKeys : List String
  activePowerUp : Option PowerUp
  auction : Option AuctionState
  challengeScore : Int
  timeLeft : Int
  isTimerActive : Bool
  timerStarted : Bool
deriving DecidableEq, Repr

/-- The initial values passed to the `useState` calls (lines 56-69). -/
def initialState : State :=
  { phase := .SETUP
    teams :=
      { team0 :=
          { name := "", score := 0, color := "text-blue-800", borderColor := "border-blue-700",
            shadowColor := "blue", inventory := { double := 1, block := 1 } }
        team1 :=
          { name := "", score := 0, color := "text-lime-600", borderColor := "border-lime-500",
            shadowColor := "lime", inventory := { double := 1, block := 1 } } }
    activeTeamIndex := 0
    selectedCategories := []
    answeredKeys := []
    activePowerUp := none
    auction := none
    challengeScore := 0
    timeLeft := 0
    isTimerActive := false
    timerStarted := false }

/-- The recurring expression `i === 0 ? 1 : 0`. -/
def otherIndex (i : Int) : Int := if i = 0 then 1 else 0

/-- The expression `names[k] || fallback`: a missing or empty name gives the fallback. -/
def nameOr (n : Option String) (fallback : String) : String :=
  match n with
  | some x => if x = "" then fallback else x
  | none => fallback

/-- Method `Set.prototype.add` on the list model of a set of strings. -/
def setAdd (ks : List String) (k : String) : List String :=
  if k ∈ ks then ks else ks ++ [k]

/-- Action `updateTeamScore` (lines 71-73). -/
def updateTeamScore (s : State) (index delta : Int) : State :=
  { s with
    teams := s.teams.map fun t i =>
      if i = index then { t with score := max 0 (t.score + delta) } else t }

/-- Action `startGame` (lines 75-81). -/
def startGame (s : State) (names : List String) : State :=
  { s with
    teams :=
      { team0 := { s.teams.team0 with name := nameOr names[0]? "فريق الصقور", score := 0 }
        team1 := { s.teams.team1 with name := nameOr names[1]? "فريق الأسود", score := 0 } }
    phase := .DRAFT }

/-- Action `pickCategory` (lines 83-92). -/
def pickCategory (s : State) (cat : Category) : State :=
  if s.selectedCategories.length ≥ 6 then s
  else
    let selected := s.selectedCategories ++ [{ toCategory := cat, ownerIndex := s.activeTeamIndex }]
    if s.selectedCategories.length < 5 then
      { s with selectedCategories := selected, activeTeamIndex := otherIndex s.activeTeamIndex }
    else
      { s with selectedCategories := selected, phase := .BOARD, activeTeamIndex := 0 }

/-- Action `togglePowerUp` (lines 94-98). The result `none` is the `TypeError` raised by
`teams[activeTeamIndex].inventory` when the index is neither 0 nor 1; no state
cell has been written at that point. -/
def togglePowerUp (s : State) (type : PowerUp) : Option State :=
  if s.phase ≠ .BOARD then some s
  else
    match s.teams.get? s.activeTeamIndex with
    | none => none
    | some t =>
      if t.inventory.get type ≤ 0 then some s
      else some { s with activePowerUp := if s.activePowerUp = some type then none else some type }

/-- Action `initiateAuction` (lines 100-128). -/
def initiateAuction (s : State) (cat : SelectedCategory) (points teamIndex : Int) : State :=
  let isDoubled : Bool := s.activePowerUp = some .double
  let isBlocked : Bool := s.activePowerUp = some .block
  { s with
    teams :=
      match s.activePowerUp with
      | some p =>
        s.teams.map fun t idx =>
          if idx = s.activeTeamIndex then
            { t with inventory := t.inventory.set p (t.inventory.get p - 1) }
          else t
      | none => s.teams
    auction := some
      { categoryId := cat.id
        categoryName := cat.name
        basePoints := points
        points := points
        currentBid := 1
        activeBidderIndex := teamIndex
        lastBidderIndex := none
        withdrawnIndices := []
        winnerIndex := if isBlocked then some teamIndex else none
        missionText := "اذكر مجموعة من " ++ cat.name ++ " المتعلقة بهذا التحدي"
        isDoubled := isDoubled
        isBlocked := isBlocked
        powerUpOwnerIndex := if s.activePowerUp.isSome then some s.activeTeamIndex else none
        categoryOwnerIndex := cat.ownerIndex }
    activePowerUp := none
    phase := .AUCTION }

/-- The updater passed to `setAuction` by `raiseBid` (lines 131-139). -/
def raiseBidUpdate (prev : Option AuctionState) : Option AuctionState :=
  match prev with
  | none => none
  | some a =>
    if a.isBlocked then some a
    else some
      { a with
        currentBid := a.currentBid + 1
        lastBidderIndex := some a.activeBidderIndex
        activeBidderIndex := otherIndex a.activeBidderIndex }

/-- Action `raiseBid` (lines 130-140). -/
def raiseBid (s : State) : State := { s with auction := raiseBidUpdate s.auction }

/-- The updater passed to `setAuction` by `withdraw` (lines 143-146). -/
def withdrawUpdate (prev : Option AuctionState) : Option AuctionState :=
  match prev with
  | none => none
  | some a =>
    if a.isBlocked then some a
    else some
      { a with
        withdrawnIndices := a.withdrawnIndices ++ [a.activeBidderIndex]
        winnerIndex := some (otherIndex a.activeBidderIndex) }

/-- Action `withdraw` (lines 142-147). -/
def withdraw (s : State) : State := { s with auction := withdrawUpdate s.auction }

/-- The expression `TIMER_CONFIG[basePoints] || 30`: a missing entry, or an entry
that is 0, gives 30. -/
def timerSeconds (TIMER_CONFIG : Int → Option Int) (basePoints : Int) : Int :=
  match TIMER_CONFIG basePoints with
  | some v => if v = 0 then 30 else v
  | none => 30

/-- Action `startChallenge` (lines 149-156). -/
def startChallenge (TIMER_CONFIG : Int → Option Int) (s : State) : State :=
  match s.auction with
  | none => s
  | some a =>
    { s with
      timeLeft := timerSeconds TIMER_CONFIG a.basePoints
      challengeScore := 0
      timerStarted := false
      isTimerActive := false
      phase := .CHALLENGE }

/-- The local `success` of `finalizeChallenge` (line 160). -/
def challengeSuccess (challengeScore : Int) (a : AuctionState) : Bool :=
  decide (challengeScore ≥ a.currentBid)

/-- The local `finalWinnerIndex` of `finalizeChallenge` (line 161), for a settled winner `w`. -/
def finalWinnerIndex (challengeScore : Int) (a : AuctionState) (w : Int) : Int :=
  if challengeSuccess challengeScore a then w else otherIndex w

/-- The local `pointsToAdd` of `finalizeChallenge` (lines 162-163), for a settled winner `w`. -/
def pointsToAdd (challengeScore : Int) (a : AuctionState) (w : Int) : Int :=
  if challengeSuccess challengeScore a ∧ a.isDoubled = true ∧
      some (finalWinnerIndex challengeScore a w) = a.powerUpOwnerIndex then
    a.basePoints * 2
  else a.basePoints

/-- The template string used as answered-cell key (line 166). -/
def answeredKey (a : AuctionState) (activeTeamIndex : Int) : String :=
  a.categoryId ++ "-" ++ toString (if activeTeamIndex = 0 then (0 : Int) else 1) ++ "-" ++
    toString a.basePoints

/-- Action `finalizeChallenge` (lines 158-172). -/
def finalizeChallenge (s : State) : State :=
  match s.auction with
  | none => s
  | some a =>
    match a.winnerIndex with
    | none => s
    | some w =>
      { s with
        teams := s.teams.map fun t idx =>
          if idx = finalWinnerIndex s.challengeScore a w then
            { t with score := t.score + pointsToAdd s.challengeScore a w }
          else t
        answeredKeys := setAdd s.answeredKeys (answeredKey a s.activeTeamIndex)
        activeTeamIndex := otherIndex s.activeTeamIndex
        phase := if s.answeredKeys.length + 1 ≥ 18 then .FINALE else .BOARD
        auction := none
        isTimerActive := false
        timerStarted := false }

/-- Action `resetGame` (lines 174-180). -/
def resetGame (s : State) : State :=
  { s with
    phase := .SETUP
    teams := s.teams.map fun t _ => { t with score := 0, inventory := { double := 1, block := 1 } }
    answeredKeys := []
    selectedCategories := []
    activeTeamIndex := 0 }

/-- The ten engine operations with their arguments. -/
inductive Op where
  | startGame (names : List String)
  | pickCategory (cat : Category)
  | togglePowerUp (type : PowerUp)
  | initiateAuction (cat : SelectedCategory) (points teamIndex : Int)
  | raiseBid
  | withdraw
  | startChallenge
  | finalizeChallenge
  | updateTeamScore (index delta : Int)
  | resetGame
deriving DecidableEq, Repr

/-- One call of an engine operation. A `togglePowerUp` that throws writes nothing. -/
def step (TIMER_CONFIG : Int → Option Int) (s : State) : Op → State
  | .startGame names => startGame s names
  | .pickCategory cat => pickCategory s cat
  | .togglePowerUp type => (togglePowerUp s type).getD s
  | .initiateAuction cat points teamIndex => initiateAuction s cat points teamIndex
  | .raiseBid => raiseBid s
  | .withdraw => withdraw s
  | .startChallenge => startChallenge TIMER_CONFIG s
  | .finalizeChallenge => finalizeChallenge s
  | .updateTeamScore index delta => updateTeamScore s index delta
  | .resetGame => resetGame s

/-- A sequence of calls, left to right. -/
def run (TIMER_CONFIG : Int → Option Int) (s : State) (ops : List Op) : State :=
  ops.foldl (step TIMER_CONFIG) s

/-- The `disabled` attribute of a category button in `DraftScreen` (lines 287-288):
`!!selectedCategories.find(s => s.id === cat.id)`. -/
def draftButtonDisabled (s : State) (cat : Category) : Bool :=
  (s.selectedCategories.find? fun sc => sc.id == cat.id).isSome

/-- A click on a category button of `DraftScreen` (line 288): a disabled button does not
fire its `onClick`, an enabled one calls `pickCategory(cat)`. -/
def draftClick (s : State) (cat : Category) : State :=
  if draftButtonDisabled s cat then s else pickCategory s cat

/-- An auction record with bid 3 whose winner is settled as team 0. -/
def exampleAuctionBid3 : AuctionState :=
  { categoryId := "c1", categoryName := "N", basePoints := 200, points := 200, currentBid := 3,
    activeBidderIndex := 1, lastBidderIndex := some 0, withdrawnIndices := [1],
    winnerIndex := some 0, missionText := "", isDoubled := true, isBlocked := false,
    powerUpOwnerIndex := some 0, categoryOwnerIndex := 0 }

/-- A challenge state over `exampleAuctionBid3` with the given challenge score. -/
def exampleChallengeState (score : Int) : State :=
  { initialState with
    phase := .CHALLENGE, auction := some exampleAuctionBid3, challengeScore := score }

/-- A state in the auction phase whose auction was opened by team 0 without a power-up. -/
def exampleAuctionState : State :=
  initiateAuction initialState
    { toCategory := { id := "c1", name := "N" }, ownerIndex := 0 } 100 0

/-- A board state in which team 0 has armed the block power-up. -/
def exampleBlockArmed : State :=
  { initialState with phase := .BOARD, activePowerUp := some .block }

/-- The ids of the selected categories. -/
def selectedIds (s : State) : List String := s.selectedCategories.map fun sc => sc.id

/-- The phase in which the interface offers each operation. `AppContent` (lines 424-441)
renders one screen per phase: `SetupScreen` calls `startGame`, `DraftScreen` calls
`pickCategory`, `BoardScreen` calls `initiateAuction`, `AuctionOverlay` calls `raiseBid`,
`withdraw` and `startChallenge`, `ChallengeScreen` calls `finalizeChallenge`. The
operations `togglePowerUp`, `updateTeamScore` and `resetGame` are left unrestricted. -/
def phaseAllows (ph : GamePhase) : Op → Bool
  | .startGame _ => ph = .SETUP
  | .pickCategory _ => ph = .DRAFT
  | .initiateAuction _ _ _ => ph = .BOARD
  | .raiseBid => ph = .AUCTION
  | .withdraw => ph = .AUCTION
  | .startChallenge => ph = .AUCTION
  | .finalizeChallenge => ph = .CHALLENGE
  | .togglePowerUp _ => true
  | .updateTeamScore _ _ => true
  | .resetGame => true

/-- A sequence of calls in which every operation is called in a phase that offers it. -/
def respectsPhases (TIMER_CONFIG : Int → Option Int) : State → List Op → Bool
  | _, [] => true
  | s, op :: ops => phaseAllows s.phase op && respectsPhases TIMER_CONFIG (step TIMER_CONFIG s op) ops

/-- Invariant of phase-respecting runs: all inventory counts are non-negative, and an
armed power-up is either held (at least one unit) by the active team on the board, or held
by both teams while the game is in setup or draft. -/
def InventoryInv (s : State) : Prop :=
  (∀ p, 0 ≤ s.teams.team0.inventory.get p ∧ 0 ≤ s.teams.team1.inventory.get p) ∧
  ∀ p, s.activePowerUp = some p →
    (s.phase = .BOARD ∧ ∃ t, s.teams.get? s.activeTeamIndex = some t ∧ 1 ≤ t.inventory.get p) ∨
    ((s.phase = .SETUP ∨ s.phase = .DRAFT) ∧
      1 ≤ s.teams.team0.inventory.get p ∧ 1 ≤ s.teams.team1.inventory.get p)

/-- One full round through the interface: setup, six draft picks, team 0 arms and spends
its double power-up, bidding, challenge and finalization. -/
def exampleRound : List Op :=
  [.startGame ["A", "B"], .pickCategory ⟨"a", "A"⟩, .pickCategory ⟨"b", "B"⟩,
    .pickCategory ⟨"c", "C"⟩, .pickCategory ⟨"d", "D"⟩, .pickCategory ⟨"e", "E"⟩,
    .pickCategory ⟨"f", "F"⟩, .togglePowerUp .double,
    .initiateAuction ⟨⟨"a", "A"⟩, 0⟩ 100 0, .raiseBid, .withdraw, .startChallenge,
    .finalizeChallenge]

/-- Ten engine calls, some outside the phase of their screen: team 1 spends its double
power-up; later team 0 arms double and a `pickCategory` on the board flips the active team
before the next `initiateAuction`, which charges team 1 again. -/
def inventoryUnderflowOps : List Op :=
  [.initiateAuction ⟨⟨"a", "A"⟩, 0⟩ 100 0, .withdraw, .finalizeChallenge, .togglePowerUp .double,
    .initiateAuction ⟨⟨"a", "A"⟩, 0⟩ 100 1, .withdraw, .finalizeChallenge, .togglePowerUp .double,
    .pickCategory ⟨"a", "A"⟩, .initiateAuction ⟨⟨"a", "A"⟩, 0⟩ 100 1]

/-- Guard on the arguments of a call: `initiateAuction` is given a point value `>= 0`. -/
def nonnegPoints : Op → Bool
  | .initiateAuction _ points _ => decide (0 ≤ points)
  | _ => true

/-- Invariant behind the score bound: both scores and the base points of the current
auction are non-negative. -/
def ScoreInv (s : State) : Prop :=
  0 ≤ s.teams.team0.score ∧ 0 ≤ s.teams.team1.score ∧
    ∀ b, s.auction = some b → 0 ≤ b.basePoints

/-- An auction opened with the point value -500, conceded and finalized. -/
def negativePointsOps : List Op :=
  [.initiateAuction ⟨⟨"a", "A"⟩, 0⟩ (-500) 0, .withdraw, .finalizeChallenge]

/-- A board state in which team 0 has 50 points. -/
def exampleScore50 : State :=
  { initialState with
    phase := .BOARD
    teams := { initialState.teams with team0 := { initialState.teams.team0 with score := 50 } } }

/-- The `key` of a board cell in `BoardScreen` (line 310), the template string built from
the category id, the lane index and the point value. -/
def boardKey (cat : SelectedCategory) (teamIdx pts : Int) : String :=
  cat.id ++ "-" ++ toString teamIdx ++ "-" ++ toString pts

/-- The local `canClick` of a board cell in `BoardScreen` (lines 311-312):
`activeTeamIndex === teamIdx && !answeredKeys.has(key)`. -/
def boardCanClick (s : State) (cat : SelectedCategory) (pts teamIdx : Int) : Bool :=
  decide (s.activeTeamIndex = teamIdx) && !decide (boardKey cat teamIdx pts ∈ s.answeredKeys)

/-- A click on a board cell of `BoardScreen` (line 314): the button is disabled unless
`canClick`, and an enabled one calls `initiateAuction(cat, pts, teamIdx)`. -/
def boardClick (s : State) (cat : SelectedCategory) (pts teamIdx : Int) : State :=
  if boardCanClick s cat pts teamIdx then initiateAuction s cat pts teamIdx else s

/-- One tick of the countdown effect (lines 182-190). While the countdown is active with
seconds left, the interval set up by the effect fires `setTimeLeft(t => t - 1)`; the
change of `timeLeft` re-runs the effect, which clears that interval, so one decrement
happens per run. With the countdown active at 0 the effect calls `setIsTimerActive(false)`;
otherwise it does nothing. -/
def tick (s : State) : State :=
  if s.isTimerActive = true ∧ s.timeLeft > 0 then { s with timeLeft := s.timeLeft - 1 }
  else if s.timeLeft = 0 ∧ s.isTimerActive = true then { s with isTimerActive := false }
  else s

/-- Seventeen answered-cell keys, the last of which is the cell `c1`, lane 0, 200 points. -/
def seventeenKeys : List String :=
  ["k1", "k2", "k3", "k4", "k5", "k6", "k7", "k8", "k9", "k10", "k11", "k12", "k13", "k14",
    "k15", "k16", "c1-0-200"]

/-- A challenge state over `exampleAuctionBid3` in which the cell about to be recorded is
already among seventeen answered keys. -/
def exampleRepeatedKeyState : State :=
  { exampleChallengeState 3 with answeredKeys := seventeenKeys }

/-- A challenge state over `exampleAuctionBid3` with `n` answered keys, none of them the
cell about to be recorded. -/
def exampleKeysState (n : Nat) : State :=
  { exampleChallengeState 3 with answeredKeys := (List.range n).map fun i => "k" ++ toString i }

/-- A board state in which team 0 is active and the cell `c1`, lane 0, 200 points is answered. -/
def exampleAnsweredBoard : State :=
  { initialState with phase := .BOARD, answeredKeys := ["c1-0-200"] }

/-- An example of a countdown table (the table of `./constants` is not among the sources):
30, 45 and 60 seconds for the point values 100, 200 and 300. -/
def exampleTimerConfig : Int → Option Int := fun p =>
  if p = 100 then some 30 else if p = 200 then some 45 else if p = 300 then some 60 else none

/-- A state in which the countdown is running with the given number of seconds left. -/
def exampleCountdown (seconds : Int) : State :=
  { exampleChallengeState 0 with timeLeft := seconds, isTimerActive := true, timerStarted := true }

/-- Everything that writes the state of `GameProvider`: the ten engine operations, the
five setters the context exposes next to them (line 195: `setPhase`, `setChallengeScore`,
`setIsTimerActive`, `setTimerStarted`, `setTimeLeft`) and the countdown tick. A
`SetStateAction<number>` is given by its updater (`s => s + 1` at line 397); a plain value
is the constant updater. -/
inductive Action where
  | engine (op : Op)
  | setPhase (phase : GamePhase)
  | setChallengeScore (update : Int → Int)
  | setIsTimerActive (active : Bool)
  | setTimerStarted (started : Bool)
  | setTimeLeft (update : Int → Int)
  | tick

/-- One action on the state of the provider. -/
def act (TIMER_CONFIG : Int → Option Int) (s : State) : Action → State
  | .engine op => step TIMER_CONFIG s op
  | .setPhase phase => { s with phase := phase }
  | .setChallengeScore update => { s with challengeScore := update s.challengeScore }
  | .setIsTimerActive active => { s with isTimerActive := active }
  | .setTimerStarted started => { s with timerStarted := started }
  | .setTimeLeft update => { s with timeLeft := update s.timeLeft }
  | .tick => tick s

/-- A sequence of actions, left to right. -/
def runActions (TIMER_CONFIG : Int → Option Int) (s : State) (actions : List Action) : State :=
  actions.foldl (act TIMER_CONFIG) s

/-- Guard on the arguments of an action: `initiateAuction` is given a point value `>= 0`. -/
def actionPointsNonneg : Action → Bool
  | .engine op => nonnegPoints op
  | _ => true

/-- A round won with the double power-up: setup, six picks, team 0 arms double and opens a
cell worth 200, the bid goes to 2 and team 1 concedes, team 0 gives two correct answers
(`setChallengeScore(s => s + 1)` twice) and the round is finalized; then 1000 points are
deducted from team 0 by hand. -/
def doubledRoundActions : List Action :=
  [.engine (.startGame ["A", "B"]), .engine (.pickCategory ⟨"a", "A"⟩),
    .engine (.pickCategory ⟨"b", "B"⟩), .engine (.pickCategory ⟨"c", "C"⟩),
    .engine (.pickCategory ⟨"d", "D"⟩), .engine (.pickCategory ⟨"e", "E"⟩),
    .engine (.pickCategory ⟨"f", "F"⟩), .engine (.togglePowerUp .double),
    .engine (.initiateAuction ⟨⟨"a", "A"⟩, 0⟩ 200 0), .engine .raiseBid, .engine .withdraw,
    .engine .startChallenge, .setIsTimerActive true, .setTimerStarted true,
    .setChallengeScore (fun c => c + 1), .tick, .setChallengeScore (fun c => c + 1),
    .engine .finalizeChallenge]

/-- Setup, six draft picks, and team 0 arming its block power-up on the board. -/
def armedBlockOps : List Op :=
  [.startGame ["A", "B"], .pickCategory ⟨"a", "A"⟩, .pickCategory ⟨"b", "B"⟩,
    .pickCategory ⟨"c", "C"⟩, .pickCategory ⟨"d", "D"⟩, .pickCategory ⟨"e", "E"⟩,
    .pickCategory ⟨"f", "F"⟩, .togglePowerUp .block]

/-! ## Finalization: success rule, final winner and awarded points -/

/-- C1: when `finalizeChallenge` takes effect (an auction exists and its winner `w`
is settled) the round succeeds exactly when `challengeScore >= currentBid`; the final
winner is `w` on success and `w === 0 ? 1 : 0` on failure, and that index is the one
whose team receives the points. -/
theorem C1_finalize_success_and_winner (s : State) (a : AuctionState) (w : Int)
    (ha : s.auction = some a) (hw : a.winnerIndex = some w) :
    (challengeSuccess s.challengeScore a = true ↔ s.challengeScore ≥ a.currentBid) ∧
    (s.challengeScore ≥ a.currentBid → finalWinnerIndex s.challengeScore a w = w) ∧
    (s.challengeScore < a.currentBid →
      finalWinnerIndex s.challengeScore a w = if w = 0 then 1 else 0) ∧
    (finalizeChallenge s).teams =
      s.teams.map (fun t idx =>
        if idx = (if s.challengeScore ≥ a.currentBid then w else if w = 0 then 1 else 0) then
          { t with score := t.score + pointsToAdd s.challengeScore a w }
        else t) := by
  refine ⟨by simp [challengeSuccess], ?_, ?_, ?_⟩
  · intro h
    simp [finalWinnerIndex, challengeSuccess, h]
  · intro h
    have h2 : ¬ a.currentBid ≤ s.challengeScore := by omega
    simp [finalWinnerIndex, challengeSuccess, h2, otherIndex]
  · simp only [finalizeChallenge, ha, hw, finalWinnerIndex, challengeSuccess, otherIndex]
    simp

/-- C1 at `currentBid = 3`: a challenge score of 3 keeps the settled winner 0. -/
theorem C1_finalize_success_and_winner_witness :
    (exampleChallengeState 3).auction = some exampleAuctionBid3 ∧
    exampleAuctionBid3.winnerIndex = some 0 ∧
    finalWinnerIndex (exampleChallengeState 3).challengeScore exampleAuctionBid3 0 = 0 :=
  ⟨rfl, rfl,
    (C1_finalize_success_and_winner (exampleChallengeState 3) exampleAuctionBid3 0 rfl rfl).2.1
      (by decide)⟩

/-- C2: when `finalizeChallenge` takes effect, the team at the final winner index gains
exactly `p` points, the other team's score, both names and both inventories are unchanged,
where `p` is twice the base points if the round succeeded, the auction is doubled and the
final winner is the power-up owner, and the base points otherwise. -/
theorem C2_finalize_points (s : State) (a : AuctionState) (w : Int)
    (ha : s.auction = some a) (hw : a.winnerIndex = some w) :
    let success : Prop := s.challengeScore ≥ a.currentBid
    let fw : Int := if success then w else if w = 0 then 1 else 0
    let p : Int :=
      if success ∧ a.isDoubled = true ∧ some fw = a.powerUpOwnerIndex then 2 * a.basePoints
      else a.basePoints
    let s' := finalizeChallenge s
    ((w = 0 ∨ w = 1) → (fw = 0 ∨ fw = 1)) ∧
    s'.teams.team0.score = s.teams.team0.score + (if fw = 0 then p else 0) ∧
    s'.teams.team1.score = s.teams.team1.score + (if fw = 1 then p else 0) ∧
    s'.teams.team0.name = s.teams.team0.name ∧ s'.teams.team1.name = s.teams.team1.name ∧
    s'.teams.team0.inventory = s.teams.team0.inventory ∧
    s'.teams.team1.inventory = s.teams.team1.inventory := by
  intro success fw p s'
  have hfw : finalWinnerIndex s.challengeScore a w = fw := by
    simp only [finalWinnerIndex, challengeSuccess, otherIndex, fw, success]
    by_cases h : s.challengeScore ≥ a.currentBid <;> simp [h]
  have hp : pointsToAdd s.challengeScore a w = p := by
    simp only [pointsToAdd, hfw, p, success, challengeSuccess, decide_eq_true_eq]
    by_cases h : (s.challengeScore ≥ a.currentBid ∧ a.isDoubled = true ∧
        some fw = a.powerUpOwnerIndex)
    · rw [if_pos h, if_pos h]; ring
    · rw [if_neg h, if_neg h]
  have hs : s'.teams = s.teams.map (fun t idx =>
      if idx = fw then { t with score := t.score + p } else t) := by
    simp only [s', finalizeChallenge, ha, hw, hfw, hp]
  have hrange : (w = 0 ∨ w = 1) → (fw = 0 ∨ fw = 1) := by
    intro h
    simp only [fw]
    split
    · exact h
    · split <;> simp
  clear hfw hp
  clear_value fw p s'
  rw [hs]
  simp only [Teams.map]
  refine ⟨hrange, ?_, ?_, ?_, ?_, ?_, ?_⟩
  · by_cases h : (0 : Int) = fw
    · subst h; simp
    · have h2 : ¬ fw = 0 := fun e => h e.symm
      simp [h, h2]
  · by_cases h : (1 : Int) = fw
    · subst h; simp
    · have h2 : ¬ fw = 1 := fun e => h e.symm
      simp [h, h2]
  all_goals split <;> rfl

/-- C2 at base 200, doubled, owner 0: on success the final winner 0 gets 400. -/
theorem C2_finalize_points_witness :
    (finalizeChallenge (exampleChallengeState 3)).teams.team0.score = 400 ∧
    (finalizeChallenge (exampleChallengeState 3)).teams.team1.score = 0 :=
  ⟨(C2_finalize_points (exampleChallengeState 3) exampleAuctionBid3 0 rfl rfl).2.1.trans
      (by decide),
    (C2_finalize_points (exampleChallengeState 3) exampleAuctionBid3 0 rfl rfl).2.2.1.trans
      (by decide)⟩

/-- The examples of the finalization rules at `currentBid = 3`, base 200, doubled by
team 0: a challenge score of 2 fails, the winner flips to team 1, who gets 200. -/
theorem finalize_penalty_flip_example :
    finalWinnerIndex 2 exampleAuctionBid3 0 = 1 ∧
    (finalizeChallenge (exampleChallengeState 2)).teams.team1.score = 200 ∧
    (finalizeChallenge (exampleChallengeState 2)).teams.team0.score = 0 := by
  decide

/-! ## Bidding -/

/-- The auction record is never dropped by `raiseBid`, and an unblocked auction stays so. -/
theorem raiseBid_iterate_auction (n : Nat) (s : State) (a : AuctionState)
    (ha : s.auction = some a) (hb : a.isBlocked = false) :
    ∃ b, (raiseBid^[n] s).auction = some b ∧ b.isBlocked = false ∧
      b.currentBid = a.currentBid + n ∧
      ((a.activeBidderIndex = 0 ∨ a.activeBidderIndex = 1) →
        b.activeBidderIndex = (a.activeBidderIndex + n) % 2) := by
  induction n generalizing s a with
  | zero =>
    refine ⟨a, by simpa using ha, hb, by simp, ?_⟩
    rintro (h | h) <;> simp [h]
  | succ n ih =>
    have hstep : (raiseBid s).auction = some
        { a with
          currentBid := a.currentBid + 1
          lastBidderIndex := some a.activeBidderIndex
          activeBidderIndex := otherIndex a.activeBidderIndex } := by
      simp [raiseBid, raiseBidUpdate, ha, hb]
    obtain ⟨b, h1, h2, h3, h4⟩ := ih (raiseBid s) _ hstep hb
    refine ⟨b, by simpa [Function.iterate_succ_apply] using h1, h2, ?_, ?_⟩
    · rw [h3]; push_cast; ring
    · intro h
      have h5 := h4 (by unfold otherIndex; split <;> simp)
      rw [h5]
      rcases h with h | h <;> simp only [h, otherIndex] <;> push_cast <;> omega

/-- C3: on an auction that is not block-settled, `raiseBid` adds 1 to `currentBid`, makes
the other team (`i === 0 ? 1 : 0`) the active bidder and records the old active bidder as
last bidder, leaving every other field of the auction and of the state unchanged; after
`n` calls the bid has grown by exactly `n`, and each further call changes the leader. -/
theorem C3_raiseBid (s : State) (a : AuctionState) (n : Nat)
    (ha : s.auction = some a) (hb : a.isBlocked = false) :
    raiseBid s =
      { s with
        auction := some
          { a with
            currentBid := a.currentBid + 1
            activeBidderIndex := if a.activeBidderIndex = 0 then 1 else 0
            lastBidderIndex := some a.activeBidderIndex } } ∧
    ∃ b c, (raiseBid^[n] s).auction = some b ∧ (raiseBid^[n + 1] s).auction = some c ∧
      b.currentBid = a.currentBid + n ∧
      c.currentBid = b.currentBid + 1 ∧
      c.activeBidderIndex = (if b.activeBidderIndex = 0 then 1 else 0) ∧
      c.activeBidderIndex ≠ b.activeBidderIndex ∧
      c.lastBidderIndex = some b.activeBidderIndex ∧
      ((a.activeBidderIndex = 0 ∨ a.activeBidderIndex = 1) →
        b.activeBidderIndex = (a.activeBidderIndex + n) % 2) := by
  constructor
  · simp [raiseBid, raiseBidUpdate, ha, hb, otherIndex]
  · obtain ⟨b, h1, h2, h3, h4⟩ := raiseBid_iterate_auction n s a ha hb
    refine ⟨b, { b with
        currentBid := b.currentBid + 1
        lastBidderIndex := some b.activeBidderIndex
        activeBidderIndex := otherIndex b.activeBidderIndex }, h1, ?_, h3, rfl, rfl, ?_, rfl, h4⟩
    · rw [Function.iterate_succ_apply']
      simp [raiseBid, raiseBidUpdate, h1, h2]
    · simp only [otherIndex]
      split <;> omega

/-- C3 on a fresh auction: three raises take the bid from 1 to 4. -/
theorem C3_raiseBid_witness :
    ∃ b c, (raiseBid^[3] exampleAuctionState).auction = some b ∧
      (raiseBid^[3 + 1] exampleAuctionState).auction = some c ∧
      b.currentBid = 1 + (3 : Nat) ∧
      c.currentBid = b.currentBid + 1 ∧
      c.activeBidderIndex = (if b.activeBidderIndex = 0 then 1 else 0) ∧
      c.activeBidderIndex ≠ b.activeBidderIndex ∧
      c.lastBidderIndex = some b.activeBidderIndex ∧
      (((0 : Int) = 0 ∨ (0 : Int) = 1) → b.activeBidderIndex = (0 + (3 : Nat)) % 2) :=
  (C3_raiseBid exampleAuctionState
    { categoryId := "c1", categoryName := "N", basePoints := 100, points := 100,
      currentBid := 1, activeBidderIndex := 0, lastBidderIndex := none, withdrawnIndices := [],
      winnerIndex := none, missionText := "اذكر مجموعة من N المتعلقة بهذا التحدي",
      isDoubled := false, isBlocked := false, powerUpOwnerIndex := none,
      categoryOwnerIndex := 0 } 3 (by decide) rfl).2

/-- Repeated `withdraw` on an unblocked auction: only the withdrawn list grows. -/
theorem withdraw_iterate (n : Nat) (s : State) (a : AuctionState)
    (ha : s.auction = some a) (hb : a.isBlocked = false) :
    withdraw^[n + 1] s =
      { s with
        auction := some
          { a with
            withdrawnIndices := a.withdrawnIndices ++ List.replicate (n + 1) a.activeBidderIndex
            winnerIndex := some (otherIndex a.activeBidderIndex) } } := by
  induction n with
  | zero => simp [withdraw, withdrawUpdate, ha, hb]
  | succ n ih =>
    rw [Function.iterate_succ_apply', ih]
    simp [withdraw, withdrawUpdate, hb, List.replicate_succ' (n + 1)]

/-- C4: on an auction that is not block-settled, after `n >= 1` consecutive `withdraw`
calls the settled winner is the team other than the active bidder of the first call, that
bidder is in `withdrawnIndices`, and `currentBid`, `activeBidderIndex` and all the rest of
the state are as before. -/
theorem C4_withdraw (s : State) (a : AuctionState) (n : Nat)
    (ha : s.auction = some a) (hb : a.isBlocked = false) (hn : 1 ≤ n) :
    ∃ b, (withdraw^[n] s) = { s with auction := some b } ∧
      b.winnerIndex = some (if a.activeBidderIndex = 0 then 1 else 0) ∧
      b.winnerIndex ≠ some a.activeBidderIndex ∧
      a.activeBidderIndex ∈ b.withdrawnIndices ∧
      b.withdrawnIndices = a.withdrawnIndices ++ List.replicate n a.activeBidderIndex ∧
      b.currentBid = a.currentBid ∧
      b.activeBidderIndex = a.activeBidderIndex ∧
      b = { a with withdrawnIndices := b.withdrawnIndices, winnerIndex := b.winnerIndex } := by
  obtain ⟨m, rfl⟩ : ∃ m, n = m + 1 := ⟨n - 1, by omega⟩
  refine ⟨_, withdraw_iterate m s a ha hb, rfl, ?_, ?_, rfl, rfl, rfl, rfl⟩
  · simp only [otherIndex, ne_eq, Option.some.injEq]
    split <;> omega
  · simp [List.replicate_succ]

/-- C4 on a fresh auction opened by team 0: two withdrawals settle team 1 as winner. -/
theorem C4_withdraw_witness :
    ∃ b, (withdraw^[2] exampleAuctionState) = { exampleAuctionState with auction := some b } ∧
      b.winnerIndex = some 1 ∧ (0 : Int) ∈ b.withdrawnIndices ∧ b.currentBid = 1 ∧
      b.activeBidderIndex = 0 := by
  obtain ⟨b, h1, h2, _, h4, _, h6, h7, _⟩ :=
    C4_withdraw exampleAuctionState
      { categoryId := "c1", categoryName := "N", basePoints := 100, points := 100,
        currentBid := 1, activeBidderIndex := 0, lastBidderIndex := none,
        withdrawnIndices := [], winnerIndex := none,
        missionText := "اذكر مجموعة من N المتعلقة بهذا التحدي",
        isDoubled := false, isBlocked := false, powerUpOwnerIndex := none,
        categoryOwnerIndex := 0 } 2 (by decide) rfl (by decide)
  exact ⟨b, h1, h2, h4, h6, h7⟩

/-- A block-settled auction is a fixed point of `raiseBid` and `withdraw`. -/
theorem blocked_bid_ops_noop (TIMER_CONFIG : Int → Option Int) (ops : List Op) (s : State)
    (a : AuctionState) (ha : s.auction = some a) (hb : a.isBlocked = true)
    (hops : ∀ o ∈ ops, o = Op.raiseBid ∨ o = Op.withdraw) :
    run TIMER_CONFIG s ops = s := by
  induction ops with
  | nil => rfl
  | cons o ops ih =>
    have hstep : step TIMER_CONFIG s o = s := by
      rcases hops o (List.mem_cons_self _ _) with h | h
      · subst h
        cases s
        simp_all [step, raiseBid, raiseBidUpdate]
      · subst h
        cases s
        simp_all [step, withdraw, withdrawUpdate]
    simp only [run, List.foldl_cons, hstep]
    exact ih fun o ho => hops o (List.mem_cons_of_mem _ ho)

/-- C5: an auction created by `initiateAuction(cat, points, teamIndex)` while the block
power-up is armed is block-settled with `winnerIndex = teamIndex`, and any later sequence
of `raiseBid` and `withdraw` calls leaves the auction (and the whole state) unchanged. -/
theorem C5_block_settled (TIMER_CONFIG : Int → Option Int) (s : State) (cat : SelectedCategory)
    (points teamIndex : Int) (ops : List Op)
    (harmed : s.activePowerUp = some PowerUp.block)
    (hops : ∀ o ∈ ops, o = Op.raiseBid ∨ o = Op.withdraw) :
    ∃ a, (initiateAuction s cat points teamIndex).auction = some a ∧
      a.isBlocked = true ∧ a.winnerIndex = some teamIndex ∧
      a.currentBid = 1 ∧ a.activeBidderIndex = teamIndex ∧ a.withdrawnIndices = [] ∧
      run TIMER_CONFIG (initiateAuction s cat points teamIndex) ops =
        initiateAuction s cat points teamIndex := by
  refine ⟨_, rfl, by simp [harmed], by simp [harmed], rfl, rfl, rfl, ?_⟩
  exact blocked_bid_ops_noop TIMER_CONFIG ops _ _ rfl (by simp [harmed]) hops

/-- C5 on a blocked auction opened by team 0: raise, withdraw, raise change nothing. -/
theorem C5_block_settled_witness :
    ∃ a, (initiateAuction exampleBlockArmed ⟨⟨"c1", "N"⟩, 0⟩ 100 0).auction = some a ∧
      a.isBlocked = true ∧ a.winnerIndex = some 0 ∧
      a.currentBid = 1 ∧ a.activeBidderIndex = 0 ∧ a.withdrawnIndices = [] ∧
      run (fun _ => none) (initiateAuction exampleBlockArmed ⟨⟨"c1", "N"⟩, 0⟩ 100 0)
          [Op.raiseBid, Op.withdraw, Op.raiseBid] =
        initiateAuction exampleBlockArmed ⟨⟨"c1", "N"⟩, 0⟩ 100 0 :=
  C5_block_settled (fun _ => none) exampleBlockArmed ⟨⟨"c1", "N"⟩, 0⟩ 100 0
    [Op.raiseBid, Op.withdraw, Op.raiseBid] rfl (by decide)

/-! ## Draft -/

/-- C6: from a state with active team 0 and nothing selected, after `k` calls of
`pickCategory` with `1 <= k <= 5` the active team is `k mod 2` and the phase is the one
the draft started in; after the 6th call the active team is 0 and the phase is BOARD; and
the pick number `k + 1` carries `ownerIndex = k mod 2`. -/
theorem C6_draft_alternation (s : State) (cats : List Category)
    (hactive : s.activeTeamIndex = 0) (hsel : s.selectedCategories = []) :
    (1 ≤ cats.length ∧ cats.length ≤ 5 →
      (cats.foldl pickCategory s).activeTeamIndex = (cats.length % 2 : Nat) ∧
      (cats.foldl pickCategory s).phase = s.phase) ∧
    (cats.length = 6 →
      (cats.foldl pickCategory s).activeTeamIndex = 0 ∧
      (cats.foldl pickCategory s).phase = GamePhase.BOARD) ∧
    (cats.length ≤ 6 →
      (cats.foldl pickCategory s).selectedCategories =
        cats.enum.map fun kc => { toCategory := kc.2, ownerIndex := (kc.1 % 2 : Nat) }) := by
  rcases cats with _ | ⟨c1, _ | ⟨c2, _ | ⟨c3, _ | ⟨c4, _ | ⟨c5, _ | ⟨c6, _ | ⟨c7, cs⟩⟩⟩⟩⟩⟩⟩
  all_goals
    refine ⟨?_, ?_, ?_⟩ <;> intro h <;>
      simp [pickCategory, otherIndex, hactive, hsel, List.enum, List.enumFrom] at h ⊢

/-- C6 for a full draft of six picks. -/
theorem C6_draft_alternation_witness :
    (List.foldl pickCategory initialState
        [⟨"a", "A"⟩, ⟨"b", "B"⟩, ⟨"c", "C"⟩, ⟨"d", "D"⟩, ⟨"e", "E"⟩, ⟨"f", "F"⟩]).activeTeamIndex
      = 0 ∧
    (List.foldl pickCategory initialState
        [⟨"a", "A"⟩, ⟨"b", "B"⟩, ⟨"c", "C"⟩, ⟨"d", "D"⟩, ⟨"e", "E"⟩, ⟨"f", "F"⟩]).phase
      = GamePhase.BOARD :=
  (C6_draft_alternation initialState
    [⟨"a", "A"⟩, ⟨"b", "B"⟩, ⟨"c", "C"⟩, ⟨"d", "D"⟩, ⟨"e", "E"⟩, ⟨"f", "F"⟩] rfl rfl).2.1 rfl

/-- The draft button of a category is disabled exactly when its id is selected. -/
theorem draftButtonDisabled_iff (s : State) (cat : Category) :
    draftButtonDisabled s cat = true ↔ cat.id ∈ selectedIds s := by
  simp only [draftButtonDisabled, selectedIds, List.find?_isSome, List.mem_map, beq_iff_eq]

/-- One draft click keeps the selected ids distinct, at most six, and moves the phase only
to BOARD and only together with the sixth selection. -/
theorem draftClick_preserves (p0 : GamePhase) (s : State) (cat : Category)
    (hnd : (selectedIds s).Nodup) (hlen : s.selectedCategories.length ≤ 6)
    (hph : s.phase = p0 ∨ (s.phase = GamePhase.BOARD ∧ s.selectedCategories.length = 6)) :
    (selectedIds (draftClick s cat)).Nodup ∧
    (draftClick s cat).selectedCategories.length ≤ 6 ∧
    ((draftClick s cat).phase = p0 ∨
      ((draftClick s cat).phase = GamePhase.BOARD ∧
        (draftClick s cat).selectedCategories.length = 6)) := by
  unfold draftClick
  by_cases hd : draftButtonDisabled s cat = true
  · simp only [hd, if_true]
    exact ⟨hnd, hlen, hph⟩
  · have hnot : cat.id ∉ selectedIds s := fun h => hd ((draftButtonDisabled_iff s cat).2 h)
    simp only [hd, Bool.false_eq_true, if_false]
    unfold pickCategory
    by_cases h6 : s.selectedCategories.length ≥ 6
    · simp only [h6, if_true]
      exact ⟨hnd, hlen, hph⟩
    · have hnd2 : (selectedIds s ++ [cat.id]).Nodup := by
        rw [List.nodup_append]
        refine ⟨hnd, List.nodup_singleton _, ?_⟩
        intro x hx hx2
        rw [List.mem_singleton] at hx2
        exact hnot (hx2 ▸ hx)
      by_cases h5 : s.selectedCategories.length < 5
      · simp only [h6, h5, if_true, if_false, selectedIds, List.map_append, List.map_cons,
          List.map_nil, List.length_append, List.length_singleton]
        refine ⟨hnd2, by omega, ?_⟩
        rcases hph with h | ⟨_, h⟩
        · exact Or.inl h
        · omega
      · simp only [h6, h5, if_false, selectedIds, List.map_append, List.map_cons,
          List.map_nil, List.length_append, List.length_singleton]
        exact ⟨hnd2, by omega, Or.inr ⟨trivial, by omega⟩⟩

/-- C7 (amended): `pickCategory` checks only the count of selected categories; the
duplicate check is the `disabled` attribute of the draft button. For every sequence of
draft clicks from a state with nothing selected, the selected ids are pairwise distinct
and at most six, the phase leaves its starting value only for BOARD and only when exactly
six are selected, and a click on a category whose id is already selected changes nothing. -/
theorem C7_draft_distinct (s : State) (cats : List Category)
    (hsel : s.selectedCategories = []) :
    (selectedIds (cats.foldl draftClick s)).Nodup ∧
    (cats.foldl draftClick s).selectedCategories.length ≤ 6 ∧
    ((cats.foldl draftClick s).phase ≠ s.phase →
      (cats.foldl draftClick s).phase = GamePhase.BOARD ∧
      (cats.foldl draftClick s).selectedCategories.length = 6) ∧
    (∀ cat, cat.id ∈ selectedIds (cats.foldl draftClick s) →
      draftClick (cats.foldl draftClick s) cat = cats.foldl draftClick s) := by
  have key : ∀ (cs : List Category) (t : State),
      (selectedIds t).Nodup → t.selectedCategories.length ≤ 6 →
      (t.phase = s.phase ∨ (t.phase = GamePhase.BOARD ∧ t.selectedCategories.length = 6)) →
      (selectedIds (cs.foldl draftClick t)).Nodup ∧
      (cs.foldl draftClick t).selectedCategories.length ≤ 6 ∧
      ((cs.foldl draftClick t).phase = s.phase ∨
        ((cs.foldl draftClick t).phase = GamePhase.BOARD ∧
          (cs.foldl draftClick t).selectedCategories.length = 6)) := by
    intro cs
    induction cs with
    | nil => intro t h1 h2 h3; exact ⟨h1, h2, h3⟩
    | cons c cs ih =>
      intro t h1 h2 h3
      obtain ⟨g1, g2, g3⟩ := draftClick_preserves s.phase t c h1 h2 h3
      exact ih (draftClick t c) g1 g2 g3
  obtain ⟨k1, k2, k3⟩ := key cats s (by simp [selectedIds, hsel]) (by simp [hsel]) (Or.inl rfl)
  refine ⟨k1, k2, ?_, ?_⟩
  · intro hne
    rcases k3 with h | h
    · exact absurd h hne
    · exact h
  · intro cat hcat
    simp [draftClick, (draftButtonDisabled_iff _ cat).2 hcat]

/-- C7 at a draft that clicks the same category twice: it is selected once. -/
theorem C7_draft_distinct_witness :
    (selectedIds (List.foldl draftClick initialState [⟨"a", "A"⟩, ⟨"a", "A"⟩, ⟨"b", "B"⟩])).Nodup ∧
    (List.foldl draftClick initialState
      [⟨"a", "A"⟩, ⟨"a", "A"⟩, ⟨"b", "B"⟩]).selectedCategories.length ≤ 6 :=
  ⟨(C7_draft_distinct initialState [⟨"a", "A"⟩, ⟨"a", "A"⟩, ⟨"b", "B"⟩] rfl).1,
    (C7_draft_distinct initialState [⟨"a", "A"⟩, ⟨"a", "A"⟩, ⟨"b", "B"⟩] rfl).2.1⟩

/-- C7 as stated fails on the engine: `pickCategory` called twice with the same category
selects it twice, so the second call is not a no-op and the selected ids repeat. -/
theorem C7_pickCategory_duplicate_counterexample :
    (⟨"a", "A"⟩ : Category).id ∈ selectedIds (pickCategory initialState ⟨"a", "A"⟩) ∧
    pickCategory (pickCategory initialState ⟨"a", "A"⟩) ⟨"a", "A"⟩ ≠
      pickCategory initialState ⟨"a", "A"⟩ ∧
    selectedIds (pickCategory (pickCategory initialState ⟨"a", "A"⟩) ⟨"a", "A"⟩) = ["a", "a"] ∧
    ¬ (selectedIds (pickCategory (pickCategory initialState ⟨"a", "A"⟩) ⟨"a", "A"⟩)).Nodup := by
  decide

/-! ## Power-up inventories -/

/-- Reading a key after a computed-key spread. -/
theorem Inventory.get_set (inv : Inventory) (p q : PowerUp) (v : Int) :
    (inv.set p v).get q = if q = p then v else inv.get q := by
  cases p <;> cases q <;> simp [Inventory.get, Inventory.set]

/-- The inventory invariant is kept by every operation called in a phase that offers it. -/
theorem inventoryInv_step (TIMER_CONFIG : Int → Option Int) (s : State) (op : Op)
    (hinv : InventoryInv s) (hop : phaseAllows s.phase op = true) :
    InventoryInv (step TIMER_CONFIG s op) := by
  obtain ⟨hnn, harm⟩ := hinv
  cases op with
  | startGame names =>
    simp only [phaseAllows, decide_eq_true_eq] at hop
    refine ⟨fun p => hnn p, fun p hp => ?_⟩
    rcases harm p hp with ⟨h, _⟩ | ⟨_, h⟩
    · rw [hop] at h; cases h
    · exact Or.inr ⟨Or.inr rfl, h⟩
  | pickCategory cat =>
    simp only [phaseAllows, decide_eq_true_eq] at hop
    simp only [step, pickCategory]
    split
    · exact ⟨hnn, harm⟩
    · split
      · refine ⟨fun p => hnn p, fun p hp => ?_⟩
        rcases harm p hp with ⟨h, _⟩ | ⟨_, h⟩
        · rw [hop] at h; cases h
        · exact Or.inr ⟨Or.inr hop, h⟩
      · refine ⟨fun p => hnn p, fun p hp => ?_⟩
        rcases harm p hp with ⟨h, _⟩ | ⟨_, h⟩
        · rw [hop] at h; cases h
        · exact Or.inl ⟨rfl, s.teams.team0, by simp [Teams.get?], h.1⟩
  | togglePowerUp type =>
    simp only [step, togglePowerUp]
    split
    · exact ⟨hnn, harm⟩
    · rename_i hph
      have hph : s.phase = .BOARD := by simpa using hph
      split
      · exact ⟨hnn, harm⟩
      · rename_i t ht
        split
        · exact ⟨hnn, harm⟩
        · rename_i hpos
          refine ⟨fun p => hnn p, fun p hp => ?_⟩
          simp only [Option.getD_some] at hp ⊢
          split at hp
          · cases hp
          · cases hp
            exact Or.inl ⟨hph, t, ht, by omega⟩
  | initiateAuction cat points teamIndex =>
    simp only [phaseAllows, decide_eq_true_eq] at hop
    refine ⟨fun p => ?_, fun p hp => by simp [step, initiateAuction] at hp⟩
    simp only [step, initiateAuction]
    cases hpu : s.activePowerUp with
    | none => exact hnn p
    | some q =>
      rcases harm q hpu with ⟨_, t, ht, hq⟩ | ⟨h, _⟩
      · simp only [Teams.get?] at ht
        simp only [Teams.map]
        have h0 := hnn p
        by_cases ha0 : s.activeTeamIndex = 0
        · simp only [ha0, if_true] at ht
          cases ht
          simp only [ha0, if_true, Inventory.get_set]
          refine ⟨?_, by simpa using h0.2⟩
          split
          · omega
          · exact h0.1
        · by_cases ha1 : s.activeTeamIndex = 1
          · simp only [ha1, if_true] at ht
            simp at ht
            cases ht
            simp only [ha1, Inventory.get_set]
            refine ⟨by simpa using h0.1, ?_⟩
            simp only [if_true, Inventory.get_set]
            split
            · omega
            · exact h0.2
          · simp [ha0, ha1] at ht
      · rw [hop] at h; rcases h with h | h <;> cases h
  | raiseBid =>
    simp only [phaseAllows, decide_eq_true_eq] at hop
    refine ⟨fun p => hnn p, fun p hp => ?_⟩
    rcases harm p hp with ⟨h, _⟩ | ⟨h, _⟩
    · rw [hop] at h; cases h
    · rw [hop] at h; rcases h with h | h <;> cases h
  | withdraw =>
    simp only [phaseAllows, decide_eq_true_eq] at hop
    refine ⟨fun p => hnn p, fun p hp => ?_⟩
    rcases harm p hp with ⟨h, _⟩ | ⟨h, _⟩
    · rw [hop] at h; cases h
    · rw [hop] at h; rcases h with h | h <;> cases h
  | startChallenge =>
    simp only [phaseAllows, decide_eq_true_eq] at hop
    have hnone : s.activePowerUp = none := by
      cases hpu : s.activePowerUp with
      | none => rfl
      | some p =>
        rcases harm p hpu with ⟨h, _⟩ | ⟨h, _⟩
        · rw [hop] at h; cases h
        · rw [hop] at h; rcases h with h | h <;> cases h
    simp only [step, startChallenge]
    split
    · exact ⟨hnn, harm⟩
    · exact ⟨fun p => hnn p, fun p hp => by simp [hnone] at hp⟩
  | finalizeChallenge =>
    simp only [phaseAllows, decide_eq_true_eq] at hop
    have hnone : s.activePowerUp = none := by
      cases hpu : s.activePowerUp with
      | none => rfl
      | some p =>
        rcases harm p hpu with ⟨h, _⟩ | ⟨h, _⟩
        · rw [hop] at h; cases h
        · rw [hop] at h; rcases h with h | h <;> cases h
    simp only [step, finalizeChallenge]
    split
    · exact ⟨hnn, harm⟩
    · split
      · exact ⟨hnn, harm⟩
      · refine ⟨fun p => ?_, fun p hp => by simp [hnone] at hp⟩
        simp only [Teams.map]
        constructor
        · split
          · exact (hnn p).1
          · exact (hnn p).1
        · split
          · exact (hnn p).2
          · exact (hnn p).2
  | updateTeamScore index delta =>
    simp only [step, updateTeamScore]
    refine ⟨fun p => ?_, fun p hp => ?_⟩
    · simp only [Teams.map]
      constructor
      · split
        · exact (hnn p).1
        · exact (hnn p).1
      · split
        · exact (hnn p).2
        · exact (hnn p).2
    · rcases harm p hp with ⟨h, t, ht, hq⟩ | h
      · refine Or.inl ⟨h, ?_⟩
        simp only [Teams.get?, Teams.map] at ht ⊢
        split at ht
        · cases ht
          rename_i h0
          simp only [h0, if_true]
          exact ⟨_, rfl, by split <;> exact hq⟩
        · split at ht
          · cases ht
            rename_i h0 h1
            simp only [h0, h1, if_true, if_false]
            exact ⟨_, rfl, by split <;> exact hq⟩
          · cases ht
      · refine Or.inr ⟨h.1, ?_⟩
        simp only [Teams.map]
        constructor
        · split
          · exact h.2.1
          · exact h.2.1
        · split
          · exact h.2.2
          · exact h.2.2
  | resetGame =>
    simp only [step, resetGame, Teams.map]
    refine ⟨fun p => ?_, fun p hp => Or.inr ⟨Or.inl rfl, ?_⟩⟩
    · cases p <;> simp [Inventory.get]
    · cases p <;> simp [Inventory.get]

/-- The inventory invariant is kept along phase-respecting runs. -/
theorem inventoryInv_run (TIMER_CONFIG : Int → Option Int) (ops : List Op) (s : State)
    (hinv : InventoryInv s) (hops : respectsPhases TIMER_CONFIG s ops = true) :
    InventoryInv (run TIMER_CONFIG s ops) := by
  induction ops generalizing s with
  | nil => exact hinv
  | cons op ops ih =>
    simp only [respectsPhases, Bool.and_eq_true] at hops
    exact ih (step TIMER_CONFIG s op) (inventoryInv_step TIMER_CONFIG s op hinv hops.1) hops.2

/-- The initial state satisfies the inventory invariant. -/
theorem inventoryInv_initialState : InventoryInv initialState := by
  refine ⟨fun p => ?_, fun p hp => by simp [initialState] at hp⟩
  cases p <;> simp [initialState, Inventory.get]

/-- C8 (amended): in every state reached from the initial state by engine operations
with arbitrary arguments, each called in a phase whose screen offers it (`startGame` in
SETUP, `pickCategory` in DRAFT, `initiateAuction` in BOARD, `raiseBid`, `withdraw` and
`startChallenge` in AUCTION, `finalizeChallenge` in CHALLENGE; `togglePowerUp`,
`updateTeamScore` and `resetGame` in any phase), both teams have double and block
inventory counts `>= 0`. -/
theorem C8_inventory_nonneg (TIMER_CONFIG : Int → Option Int) (ops : List Op)
    (hops : respectsPhases TIMER_CONFIG initialState ops = true) :
    0 ≤ (run TIMER_CONFIG initialState ops).teams.team0.inventory.double ∧
    0 ≤ (run TIMER_CONFIG initialState ops).teams.team0.inventory.block ∧
    0 ≤ (run TIMER_CONFIG initialState ops).teams.team1.inventory.double ∧
    0 ≤ (run TIMER_CONFIG initialState ops).teams.team1.inventory.block := by
  have h := (inventoryInv_run TIMER_CONFIG ops initialState inventoryInv_initialState hops).1
  exact ⟨(h .double).1, (h .block).1, (h .double).2, (h .block).2⟩

/-- C8 (amended) on `exampleRound`: the run respects the phases and leaves team 0 with
no double power-up. -/
theorem C8_inventory_nonneg_witness :
    respectsPhases (fun _ => none) initialState exampleRound = true ∧
    (run (fun _ => none) initialState exampleRound).teams.team0.inventory.double = 0 ∧
    0 ≤ (run (fun _ => none) initialState exampleRound).teams.team0.inventory.double :=
  ⟨by decide, by decide, (C8_inventory_nonneg (fun _ => none) exampleRound (by decide)).1⟩

/-- C8 as stated fails: after `inventoryUnderflowOps` team 1 holds -1 double power-ups. -/
theorem C8_inventory_underflow_counterexample :
    (run (fun _ => none) initialState inventoryUnderflowOps).teams.team1.inventory.double = -1 ∧
    ¬ 0 ≤ (run (fun _ => none) initialState inventoryUnderflowOps).teams.team1.inventory.double := by
  decide

/-! ## Scores -/

/-- The award is non-negative when the base points are. -/
theorem pointsToAdd_nonneg (cs : Int) (a : AuctionState) (w : Int) (h : 0 ≤ a.basePoints) :
    0 ≤ pointsToAdd cs a w := by
  unfold pointsToAdd
  split <;> omega

/-- The score invariant is kept by every operation whose point argument is non-negative. -/
theorem scoreInv_step (TIMER_CONFIG : Int → Option Int) (s : State) (op : Op)
    (hinv : ScoreInv s) (hop : nonnegPoints op = true) :
    ScoreInv (step TIMER_CONFIG s op) := by
  obtain ⟨h0, h1, ha⟩ := hinv
  cases op with
  | startGame names => exact ⟨le_refl _, le_refl _, ha⟩
  | pickCategory cat =>
    simp only [step, pickCategory]
    split
    · exact ⟨h0, h1, ha⟩
    · split <;> exact ⟨h0, h1, ha⟩
  | togglePowerUp type =>
    simp only [step, togglePowerUp]
    split
    · exact ⟨h0, h1, ha⟩
    · split
      · exact ⟨h0, h1, ha⟩
      · split <;> exact ⟨h0, h1, ha⟩
  | initiateAuction cat points teamIndex =>
    simp only [nonnegPoints, decide_eq_true_eq] at hop
    simp only [step, initiateAuction]
    refine ⟨?_, ?_, ?_⟩
    · cases s.activePowerUp with
      | none => exact h0
      | some p => simp only [Teams.map]; split <;> exact h0
    · cases s.activePowerUp with
      | none => exact h1
      | some p => simp only [Teams.map]; split <;> exact h1
    · intro a h
      cases h
      exact hop
  | raiseBid =>
    refine ⟨h0, h1, ?_⟩
    intro b hb
    simp only [step, raiseBid, raiseBidUpdate] at hb
    cases hau : s.auction with
    | none => simp [hau] at hb
    | some a =>
      simp only [hau] at hb
      have hbase := ha _ hau
      split at hb <;> cases hb <;> exact hbase
  | withdraw =>
    refine ⟨h0, h1, ?_⟩
    intro b hb
    simp only [step, withdraw, withdrawUpdate] at hb
    cases hau : s.auction with
    | none => simp [hau] at hb
    | some a =>
      simp only [hau] at hb
      have hbase := ha _ hau
      split at hb <;> cases hb <;> exact hbase
  | startChallenge =>
    simp only [step, startChallenge]
    split
    · exact ⟨h0, h1, ha⟩
    · exact ⟨h0, h1, ha⟩
  | finalizeChallenge =>
    simp only [step, finalizeChallenge]
    split
    · exact ⟨h0, h1, ha⟩
    · rename_i a hau
      split
      · exact ⟨h0, h1, ha⟩
      · rename_i w hw
        have hp := pointsToAdd_nonneg s.challengeScore a w (ha a hau)
        refine ⟨?_, ?_, fun b hb => by cases hb⟩
        · simp only [Teams.map]
          split
          · show 0 ≤ s.teams.team0.score + _
            omega
          · exact h0
        · simp only [Teams.map]
          split
          · show 0 ≤ s.teams.team1.score + _
            omega
          · exact h1
  | updateTeamScore index delta =>
    simp only [step, updateTeamScore, Teams.map]
    refine ⟨?_, ?_, ha⟩
    · dsimp only
      split
      · exact le_max_left _ _
      · exact h0
    · dsimp only
      split
      · exact le_max_left _ _
      · exact h1
  | resetGame => exact ⟨le_refl _, le_refl _, ha⟩

/-- The score invariant is kept along runs whose point arguments are non-negative. -/
theorem scoreInv_run (TIMER_CONFIG : Int → Option Int) (ops : List Op) (s : State)
    (hinv : ScoreInv s) (hops : ∀ o ∈ ops, nonnegPoints o = true) :
    ScoreInv (run TIMER_CONFIG s ops) := by
  induction ops generalizing s with
  | nil => exact hinv
  | cons op ops ih =>
    exact ih (step TIMER_CONFIG s op)
      (scoreInv_step TIMER_CONFIG s op hinv (hops op (List.mem_cons_self _ _)))
      (fun o ho => hops o (List.mem_cons_of_mem _ ho))

/-- The score invariant is kept by every action: the setters and the tick write neither
the teams nor the auction. -/
theorem scoreInv_act (TIMER_CONFIG : Int → Option Int) (s : State) (a : Action)
    (hinv : ScoreInv s) (ha : actionPointsNonneg a = true) :
    ScoreInv (act TIMER_CONFIG s a) := by
  cases a with
  | engine op => exact scoreInv_step TIMER_CONFIG s op hinv ha
  | setPhase phase => exact hinv
  | setChallengeScore update => exact hinv
  | setIsTimerActive active => exact hinv
  | setTimerStarted started => exact hinv
  | setTimeLeft update => exact hinv
  | tick =>
    simp only [act, tick]
    split
    · exact hinv
    · split
      · exact hinv
      · exact hinv

/-- The score invariant is kept along every sequence of actions whose point arguments are
non-negative. -/
theorem scoreInv_runActions (TIMER_CONFIG : Int → Option Int) (actions : List Action)
    (s : State) (hinv : ScoreInv s) (hacts : ∀ a ∈ actions, actionPointsNonneg a = true) :
    ScoreInv (runActions TIMER_CONFIG s actions) := by
  induction actions generalizing s with
  | nil => exact hinv
  | cons a actions ih =>
    exact ih (act TIMER_CONFIG s a)
      (scoreInv_act TIMER_CONFIG s a hinv (hacts a (List.mem_cons_self _ _)))
      (fun b hb => hacts b (List.mem_cons_of_mem _ hb))

/-- C9 (amended): in every state reached from the initial state by any sequence of the
engine operations, interleaved at will with the setters of the context (`setChallengeScore`
with any updater, so that challenges can succeed and awards can be doubled, `setPhase`,
`setIsTimerActive`, `setTimerStarted`, `setTimeLeft`) and countdown ticks, in which each
`initiateAuction` is given a point value `>= 0` (all other arguments arbitrary), both team
scores are `>= 0`. The restriction is needed because `finalizeChallenge` adds the award
without clamping. -/
theorem C9_scores_nonneg (TIMER_CONFIG : Int → Option Int) (actions : List Action)
    (hacts : ∀ a ∈ actions, actionPointsNonneg a = true) :
    0 ≤ (runActions TIMER_CONFIG initialState actions).teams.team0.score ∧
    0 ≤ (runActions TIMER_CONFIG initialState actions).teams.team1.score := by
  have h := scoreInv_runActions TIMER_CONFIG actions initialState
    ⟨le_refl _, le_refl _, fun a ha => by simp [initialState] at ha⟩ hacts
  exact ⟨h.1, h.2.1⟩

/-- C9 (amended) on `doubledRoundActions`: the challenge succeeds with the award doubled,
team 0 reaches 400 points, and a manual deduction of 1000 is clamped to 0. -/
theorem C9_scores_nonneg_witness :
    (∀ a ∈ doubledRoundActions, actionPointsNonneg a = true) ∧
    (runActions (fun _ => none) initialState doubledRoundActions).teams.team0.score = 400 ∧
    (runActions (fun _ => none) initialState
      (doubledRoundActions ++ [.engine (.updateTeamScore 0 (-1000))])).teams.team0.score = 0 ∧
    0 ≤ (runActions (fun _ => none) initialState doubledRoundActions).teams.team0.score ∧
    0 ≤ (runActions (fun _ => none) initialState doubledRoundActions).teams.team1.score :=
  ⟨by decide, by decide, by decide,
    C9_scores_nonneg (fun _ => none) doubledRoundActions (by decide)⟩

/-- C9 as stated fails: after `negativePointsOps` team 0 has the score -500. -/
theorem C9_negative_points_counterexample :
    (run (fun _ => none) initialState negativePointsOps).teams.team0.score = -500 ∧
    ¬ 0 ≤ (run (fun _ => none) initialState negativePointsOps).teams.team0.score := by
  decide

/-- C10: for a team index `i` in {0, 1} and any integer `delta`, `updateTeamScore(i, delta)`
sets the score of team `i` to `max(0, score + delta)`, keeps the other fields of team `i`,
the whole other team and every other state cell. -/
theorem C10_updateTeamScore (s : State) (i delta : Int) (hi : i = 0 ∨ i = 1) :
    ∃ t, s.teams.get? i = some t ∧
      (updateTeamScore s i delta).teams.get? i =
        some { t with score := max 0 (t.score + delta) } ∧
      (updateTeamScore s i delta).teams.get? (otherIndex i) = s.teams.get? (otherIndex i) ∧
      updateTeamScore s i delta = { s with teams := (updateTeamScore s i delta).teams } := by
  rcases hi with rfl | rfl
  · exact ⟨s.teams.team0, rfl, rfl, rfl, rfl⟩
  · exact ⟨s.teams.team1, rfl, rfl, rfl, rfl⟩

/-- C10 at score 50 and delta -1000: the score becomes 0 and team 1 is untouched. -/
theorem C10_updateTeamScore_witness :
    (updateTeamScore exampleScore50 0 (-1000)).teams.team0.score = 0 ∧
    (updateTeamScore exampleScore50 0 (-1000)).teams.team1 = exampleScore50.teams.team1 := by
  obtain ⟨t, h1, h2, h3, _⟩ := C10_updateTeamScore exampleScore50 0 (-1000) (Or.inl rfl)
  cases h1
  constructor
  · have := congrArg (fun o => o.map Team.score) h2
    simpa [Teams.get?] using this
  · simpa [Teams.get?, otherIndex] using h3

/-! ## Finale trigger -/

/-- Adding a key that is not yet present to a duplicate-free list extends it by one. -/
theorem setAdd_new (ks : List String) (k : String) (hnd : ks.Nodup) (hk : k ∉ ks) :
    (setAdd ks k).Nodup ∧ (setAdd ks k).length = ks.length + 1 := by
  unfold setAdd
  rw [if_neg hk]
  refine ⟨?_, by simp⟩
  rw [List.nodup_append]
  refine ⟨hnd, List.nodup_singleton _, ?_⟩
  intro x hx hx2
  rw [List.mem_singleton] at hx2
  exact hk (hx2 ▸ hx)

/-- Membership in a set after `add`. -/
theorem mem_setAdd (ks : List String) (k x : String) :
    x ∈ setAdd ks k ↔ x ∈ ks ∨ x = k := by
  unfold setAdd
  split
  · constructor
    · exact Or.inl
    · rintro (h | h)
      · exact h
      · subst h; assumption
  · simp

/-- C11 (amended): when `finalizeChallenge` takes effect the resulting phase is FINALE if
the number of answered keys before the call plus one is at least 18 and BOARD otherwise.
When the recorded key is not yet in the (duplicate-free) set, the set grows by exactly one
key and the phase is FINALE exactly when the set holds at least 18 keys after the call:
recording the 17th distinct key leaves the phase BOARD, recording the 18th makes it
FINALE. -/
theorem C11_finale_trigger (s : State) (a : AuctionState) (w : Int)
    (ha : s.auction = some a) (hw : a.winnerIndex = some w) :
    (finalizeChallenge s).phase =
      (if s.answeredKeys.length + 1 ≥ 18 then GamePhase.FINALE else GamePhase.BOARD) ∧
    (s.answeredKeys.Nodup ∧ answeredKey a s.activeTeamIndex ∉ s.answeredKeys →
      (finalizeChallenge s).answeredKeys.Nodup ∧
      (finalizeChallenge s).answeredKeys.length = s.answeredKeys.length + 1 ∧
      (finalizeChallenge s).phase =
        (if (finalizeChallenge s).answeredKeys.length ≥ 18 then GamePhase.FINALE
          else GamePhase.BOARD) ∧
      ((finalizeChallenge s).answeredKeys.length = 17 →
        (finalizeChallenge s).phase = GamePhase.BOARD) ∧
      ((finalizeChallenge s).answeredKeys.length = 18 →
        (finalizeChallenge s).phase = GamePhase.FINALE)) := by
  have hph : (finalizeChallenge s).phase =
      (if s.answeredKeys.length + 1 ≥ 18 then GamePhase.FINALE else GamePhase.BOARD) := by
    simp only [finalizeChallenge, ha, hw]
  have hkeys : (finalizeChallenge s).answeredKeys =
      setAdd s.answeredKeys (answeredKey a s.activeTeamIndex) := by
    simp only [finalizeChallenge, ha, hw]
  refine ⟨hph, ?_⟩
  rintro ⟨hnd, hnew⟩
  obtain ⟨h1, h2⟩ := setAdd_new _ _ hnd hnew
  rw [hkeys, hph, h2]
  refine ⟨h1, rfl, rfl, ?_, ?_⟩
  · intro h
    rw [if_neg (by omega)]
  · intro h
    rw [if_pos (by omega)]

/-- C11 (amended) at 17 answered keys and a new cell: the 18th key makes the phase FINALE. -/
theorem C11_finale_trigger_witness :
    (finalizeChallenge (exampleKeysState 17)).answeredKeys.length = 18 ∧
    (finalizeChallenge (exampleKeysState 17)).phase = GamePhase.FINALE :=
  ⟨((C11_finale_trigger (exampleKeysState 17) exampleAuctionBid3 0 rfl rfl).2
      ⟨by decide, by decide⟩).2.1,
    (C11_finale_trigger (exampleKeysState 17) exampleAuctionBid3 0 rfl rfl).1.trans
      (by decide)⟩

/-- C11 as stated fails: with 17 answered keys that already include the cell being
recorded, `finalizeChallenge` leaves 17 distinct keys in the set and still moves to FINALE. -/
theorem C11_repeated_key_counterexample :
    exampleRepeatedKeyState.auction = some exampleAuctionBid3 ∧
    exampleAuctionBid3.winnerIndex = some 0 ∧
    (finalizeChallenge exampleRepeatedKeyState).answeredKeys.Nodup ∧
    (finalizeChallenge exampleRepeatedKeyState).answeredKeys.length = 17 ∧
    (finalizeChallenge exampleRepeatedKeyState).phase = GamePhase.FINALE := by
  decide

/-! ## Board cells and auction initiation -/

/-- Answered keys are only ever removed by `resetGame`. -/
theorem answeredKeys_persist (TIMER_CONFIG : Int → Option Int) (s : State) (op : Op)
    (hop : op ≠ Op.resetGame) (k : String) (hk : k ∈ s.answeredKeys) :
    k ∈ (step TIMER_CONFIG s op).answeredKeys := by
  cases op with
  | startGame names => exact hk
  | pickCategory cat =>
    simp only [step, pickCategory]
    split
    · exact hk
    · split <;> exact hk
  | togglePowerUp type =>
    simp only [step, togglePowerUp]
    split
    · exact hk
    · split
      · exact hk
      · split <;> exact hk
  | initiateAuction cat points teamIndex => exact hk
  | raiseBid => exact hk
  | withdraw => exact hk
  | startChallenge =>
    simp only [step, startChallenge]
    split <;> exact hk
  | finalizeChallenge =>
    simp only [step, finalizeChallenge]
    split
    · exact hk
    · split
      · exact hk
      · exact (mem_setAdd _ _ _).2 (Or.inl hk)
  | updateTeamScore index delta => exact hk
  | resetGame => exact absurd rfl hop

/-- C12 (amended): `initiateAuction` itself has no guard; the guard is `canClick` of the
board cell. A click on a board cell whose key (category id, lane, points) is in the
answered-cell set, or whose lane is not the active team, leaves the state unchanged (no
auction is created, the phase does not become AUCTION); and an answered key stays in the
set under every engine operation other than `resetGame`. -/
theorem C12_answered_cell_not_auctioned (TIMER_CONFIG : Int → Option Int) (s : State)
    (cat : SelectedCategory) (pts teamIdx : Int)
    (h : boardKey cat teamIdx pts ∈ s.answeredKeys ∨ teamIdx ≠ s.activeTeamIndex) :
    boardClick s cat pts teamIdx = s ∧
    (boardKey cat teamIdx pts ∈ s.answeredKeys →
      ∀ op, op ≠ Op.resetGame →
        boardKey cat teamIdx pts ∈ (step TIMER_CONFIG s op).answeredKeys ∧
        boardClick (step TIMER_CONFIG s op) cat pts teamIdx = step TIMER_CONFIG s op) := by
  have noClick : ∀ t : State,
      (boardKey cat teamIdx pts ∈ t.answeredKeys ∨ teamIdx ≠ t.activeTeamIndex) →
      boardClick t cat pts teamIdx = t := by
    intro t ht
    unfold boardClick boardCanClick
    rcases ht with ht | ht
    · simp [ht]
    · have ht2 : ¬ t.activeTeamIndex = teamIdx := fun e => ht e.symm
      simp [ht2]
  refine ⟨noClick s h, ?_⟩
  intro hk op hop
  have hk2 := answeredKeys_persist TIMER_CONFIG s op hop _ hk
  exact ⟨hk2, noClick _ (Or.inl hk2)⟩

/-- C12 (amended) on a board whose cell `c1`, lane 0, 200 points is answered. -/
theorem C12_answered_cell_not_auctioned_witness :
    boardKey ⟨⟨"c1", "N"⟩, 0⟩ 0 200 ∈ exampleAnsweredBoard.answeredKeys ∧
    boardClick exampleAnsweredBoard ⟨⟨"c1", "N"⟩, 0⟩ 200 0 = exampleAnsweredBoard :=
  ⟨by decide,
    (C12_answered_cell_not_auctioned (fun _ => none) exampleAnsweredBoard ⟨⟨"c1", "N"⟩, 0⟩
      200 0 (Or.inl (by decide))).1⟩

/-- C12 as stated fails: `initiateAuction` on an answered cell, and on a lane that is not
the active team, creates an auction and moves to the AUCTION phase. -/
theorem C12_initiateAuction_unguarded_counterexample :
    boardKey ⟨⟨"c1", "N"⟩, 0⟩ 0 200 ∈ exampleAnsweredBoard.answeredKeys ∧
    initiateAuction exampleAnsweredBoard ⟨⟨"c1", "N"⟩, 0⟩ 200 0 ≠ exampleAnsweredBoard ∧
    (initiateAuction exampleAnsweredBoard ⟨⟨"c1", "N"⟩, 0⟩ 200 0).phase = GamePhase.AUCTION ∧
    (initiateAuction exampleAnsweredBoard ⟨⟨"c1", "N"⟩, 0⟩ 200 0).auction.isSome = true ∧
    exampleAnsweredBoard.activeTeamIndex ≠ 1 ∧
    (initiateAuction exampleAnsweredBoard ⟨⟨"c2", "M"⟩, 0⟩ 100 1).phase = GamePhase.AUCTION := by
  decide

/-- C13: `initiateAuction(cat, points, teamIndex)` creates an auction with bid 1, active
bidder `teamIndex`, no last bidder and no withdrawals, doubled exactly when double was armed
and blocked exactly when block was armed, owned by the active team exactly when a power-up
was armed; the active team's count of the armed type drops by exactly 1 and no other
inventory count, score or name changes; afterwards nothing is armed and the phase is
AUCTION. -/
theorem C13_initiateAuction (s : State) (cat : SelectedCategory) (points teamIndex : Int) :
    (∃ a, (initiateAuction s cat points teamIndex).auction = some a ∧
      a.currentBid = 1 ∧ a.activeBidderIndex = teamIndex ∧ a.lastBidderIndex = none ∧
      a.withdrawnIndices = [] ∧ a.basePoints = points ∧ a.categoryId = cat.id ∧
      (a.isDoubled = true ↔ s.activePowerUp = some PowerUp.double) ∧
      (a.isBlocked = true ↔ s.activePowerUp = some PowerUp.block) ∧
      (a.powerUpOwnerIndex =
        if s.activePowerUp = none then none else some s.activeTeamIndex)) ∧
    (∀ q, (initiateAuction s cat points teamIndex).teams.team0.inventory.get q =
      s.teams.team0.inventory.get q -
        (if s.activeTeamIndex = 0 ∧ s.activePowerUp = some q then 1 else 0)) ∧
    (∀ q, (initiateAuction s cat points teamIndex).teams.team1.inventory.get q =
      s.teams.team1.inventory.get q -
        (if s.activeTeamIndex = 1 ∧ s.activePowerUp = some q then 1 else 0)) ∧
    (initiateAuction s cat points teamIndex).teams.team0.score = s.teams.team0.score ∧
    (initiateAuction s cat points teamIndex).teams.team1.score = s.teams.team1.score ∧
    (initiateAuction s cat points teamIndex).teams.team0.name = s.teams.team0.name ∧
    (initiateAuction s cat points teamIndex).teams.team1.name = s.teams.team1.name ∧
    (initiateAuction s cat points teamIndex).activePowerUp = none ∧
    (initiateAuction s cat points teamIndex).phase = GamePhase.AUCTION := by
  refine ⟨⟨_, rfl, rfl, rfl, rfl, rfl, rfl, ?_, ?_, ?_⟩, ?_, ?_, ?_, ?_, ?_, ?_, rfl, rfl⟩
  · simp
  · simp
  · cases s.activePowerUp <;> simp
  · intro q
    simp only [initiateAuction]
    cases hp : s.activePowerUp with
    | none => simp
    | some p =>
      simp only [Teams.map]
      by_cases h0 : s.activeTeamIndex = 0
      · simp only [h0, if_true, Inventory.get_set, true_and, Option.some.injEq]
        by_cases hq : q = p
        · subst hq; simp
        · have hq2 : ¬ p = q := fun e => hq e.symm
          simp [hq, hq2]
      · have h0b : ¬ (0 : Int) = s.activeTeamIndex := fun e => h0 e.symm
        simp [h0, h0b]
  · intro q
    simp only [initiateAuction]
    cases hp : s.activePowerUp with
    | none => simp
    | some p =>
      simp only [Teams.map]
      by_cases h1 : s.activeTeamIndex = 1
      · simp only [h1, if_true, Inventory.get_set, true_and, Option.some.injEq]
        by_cases hq : q = p
        · subst hq; simp
        · have hq2 : ¬ p = q := fun e => hq e.symm
          simp [hq, hq2]
      · have h1b : ¬ (1 : Int) = s.activeTeamIndex := fun e => h1 e.symm
        simp [h1, h1b]
  all_goals
    simp only [initiateAuction]
    cases s.activePowerUp with
    | none => rfl
    | some p => simp only [Teams.map]; split <;> rfl

/-! ## Power-up arming -/

/-- The active team index is 0 or 1 in every state the engine operations can reach. -/
theorem activeTeamIndex_run (TIMER_CONFIG : Int → Option Int) (ops : List Op) (s : State)
    (h : s.activeTeamIndex = 0 ∨ s.activeTeamIndex = 1) :
    (run TIMER_CONFIG s ops).activeTeamIndex = 0 ∨ (run TIMER_CONFIG s ops).activeTeamIndex = 1 := by
  have hother : ∀ i : Int, otherIndex i = 0 ∨ otherIndex i = 1 := by
    intro i; unfold otherIndex; split <;> simp
  induction ops generalizing s with
  | nil => exact h
  | cons op ops ih =>
    apply ih
    cases op with
    | startGame names => exact h
    | pickCategory cat =>
      simp only [step, pickCategory]
      split
      · exact h
      · split
        · exact hother _
        · exact Or.inl rfl
    | togglePowerUp type =>
      simp only [step, togglePowerUp]
      split
      · exact h
      · split
        · exact h
        · split <;> exact h
    | initiateAuction cat points teamIndex => exact h
    | raiseBid => exact h
    | withdraw => exact h
    | startChallenge =>
      simp only [step, startChallenge]
      split <;> exact h
    | finalizeChallenge =>
      simp only [step, finalizeChallenge]
      split
      · exact h
      · split
        · exact h
        · exact hother _
    | updateTeamScore index delta => exact h
    | resetGame => exact Or.inl rfl

/-- C14 (amended): with `tm` the active team, `togglePowerUp(t)` leaves the state unchanged
when the phase is not BOARD or `tm` holds no unit of `t`; otherwise it arms `t` if `t` was
not the armed type and disarms if `t` was armed, so two calls in a row with the same type
end disarmed when `t` was not armed before the first call, and give back the starting
state, with `t` armed again, when it was; the teams (hence both inventories) are never
changed. -/
theorem C14_togglePowerUp (s : State) (t : PowerUp) (tm : Team)
    (hact : s.teams.get? s.activeTeamIndex = some tm) :
    (s.phase ≠ GamePhase.BOARD ∨ tm.inventory.get t ≤ 0 → togglePowerUp s t = some s) ∧
    (s.phase = GamePhase.BOARD ∧ 0 < tm.inventory.get t →
      (s.activePowerUp ≠ some t →
        togglePowerUp s t = some { s with activePowerUp := some t }) ∧
      (s.activePowerUp = some t →
        togglePowerUp s t = some { s with activePowerUp := none }) ∧
      (s.activePowerUp ≠ some t →
        (togglePowerUp s t).bind (fun s1 => togglePowerUp s1 t) =
          some { s with activePowerUp := none }) ∧
      (s.activePowerUp = some t →
        (togglePowerUp s t).bind (fun s1 => togglePowerUp s1 t) = some s)) ∧
    (∃ s1, togglePowerUp s t = some s1 ∧ s1.teams = s.teams ∧
      s1 = { s with activePowerUp := s1.activePowerUp }) := by
  refine ⟨?_, ?_, ?_⟩
  · rintro (h | h)
    · simp [togglePowerUp, h]
    · by_cases hph : s.phase = GamePhase.BOARD
      · simp [togglePowerUp, hph, hact, h]
      · simp [togglePowerUp, hph]
  · rintro ⟨hph, hpos⟩
    have hpos2 : ¬ tm.inventory.get t ≤ 0 := by omega
    refine ⟨?_, ?_, ?_, ?_⟩
    · intro hne
      simp [togglePowerUp, hph, hact, hpos2, hne]
    · intro he
      simp [togglePowerUp, hph, hact, hpos2, he]
    · intro hne
      simp [togglePowerUp, hph, hact, hpos2, hne]
    · intro he
      rcases s with ⟨ph, tms, active, sel, keys, pu, auc, cs, tl, ita, ts⟩
      simp only at hph he hact
      subst hph
      subst he
      simp [togglePowerUp, hact, hpos2]
  · unfold togglePowerUp
    split
    · exact ⟨s, rfl, rfl, rfl⟩
    · rw [hact]
      dsimp only
      split
      · exact ⟨s, rfl, rfl, rfl⟩
      · exact ⟨_, rfl, rfl, rfl⟩

/-- C14 (amended) on the initial board: team 0 holds one block, so two calls arm and
disarm it. -/
theorem C14_togglePowerUp_witness :
    togglePowerUp { initialState with phase := GamePhase.BOARD } PowerUp.block =
      some { initialState with phase := GamePhase.BOARD, activePowerUp := some PowerUp.block } ∧
    (togglePowerUp { initialState with phase := GamePhase.BOARD } PowerUp.block).bind
        (fun s1 => togglePowerUp s1 PowerUp.block) =
      some { initialState with phase := GamePhase.BOARD } :=
  ⟨((C14_togglePowerUp { initialState with phase := GamePhase.BOARD } PowerUp.block
      initialState.teams.team0 rfl).2.1 ⟨rfl, by decide⟩).1 (by decide),
    ((C14_togglePowerUp { initialState with phase := GamePhase.BOARD } PowerUp.block
      initialState.teams.team0 rfl).2.1 ⟨rfl, by decide⟩).2.2.1 (by decide)⟩

/-- C14 as stated fails: after setup, six picks and one `togglePowerUp(block)`, team 0 is on
the board with block armed and one block in its inventory; two further calls of
`togglePowerUp(block)` in a row end with block armed, not disarmed. -/
theorem C14_toggle_twice_counterexample :
    (run (fun _ => none) initialState armedBlockOps).phase = GamePhase.BOARD ∧
    (run (fun _ => none) initialState armedBlockOps).activeTeamIndex = 0 ∧
    0 < (run (fun _ => none) initialState armedBlockOps).teams.team0.inventory.get
      PowerUp.block ∧
    (run (fun _ => none) initialState armedBlockOps).activePowerUp = some PowerUp.block ∧
    ((togglePowerUp (run (fun _ => none) initialState armedBlockOps) PowerUp.block).bind
        (fun s1 => togglePowerUp s1 PowerUp.block)).map (fun s2 => s2.activePowerUp) =
      some (some PowerUp.block) ∧
    (run (fun _ => none) initialState
      (armedBlockOps ++ [Op.togglePowerUp PowerUp.block, Op.togglePowerUp PowerUp.block])
      ).activePowerUp ≠ none := by
  decide

/-! ## Reset -/

/-- C15: from every state `resetGame` yields both scores 0, both inventories
`{double: 1, block: 1}`, an empty answered-cell set, no selected categories, active team 0
and phase SETUP. -/
theorem C15_resetGame (s : State) :
    (resetGame s).teams.team0.score = 0 ∧ (resetGame s).teams.team1.score = 0 ∧
    (resetGame s).teams.team0.inventory = { double := 1, block := 1 } ∧
    (resetGame s).teams.team1.inventory = { double := 1, block := 1 } ∧
    (resetGame s).answeredKeys = [] ∧ (resetGame s).selectedCategories = [] ∧
    (resetGame s).activeTeamIndex = 0 ∧ (resetGame s).phase = GamePhase.SETUP :=
  ⟨rfl, rfl, rfl, rfl, rfl, rfl, rfl, rfl⟩

/-- C16 (amended): `resetGame` resets the phase, both scores, both inventories, the
answered-cell set, the selected categories and the active team, and leaves the team names
and colours, the armed power-up, the auction record, the challenge score and the three
countdown cells as they were; the result is the initial state exactly when those cells
already had their initial values. -/
theorem C16_resetGame_frame (s : State) :
    (resetGame s).teams.team0.name = s.teams.team0.name ∧
    (resetGame s).teams.team1.name = s.teams.team1.name ∧
    (resetGame s).activePowerUp = s.activePowerUp ∧
    (resetGame s).auction = s.auction ∧
    (resetGame s).challengeScore = s.challengeScore ∧
    (resetGame s).timeLeft = s.timeLeft ∧
    (resetGame s).isTimerActive = s.isTimerActive ∧
    (resetGame s).timerStarted = s.timerStarted ∧
    (resetGame s = initialState ↔
      (s.teams.team0.name = "" ∧ s.teams.team1.name = "" ∧
        s.teams.team0.color = initialState.teams.team0.color ∧
        s.teams.team0.borderColor = initialState.teams.team0.borderColor ∧
        s.teams.team0.shadowColor = initialState.teams.team0.shadowColor ∧
        s.teams.team1.color = initialState.teams.team1.color ∧
        s.teams.team1.borderColor = initialState.teams.team1.borderColor ∧
        s.teams.team1.shadowColor = initialState.teams.team1.shadowColor ∧
        s.activePowerUp = none ∧ s.auction = none ∧ s.challengeScore = 0 ∧
        s.timeLeft = 0 ∧ s.isTimerActive = false ∧ s.timerStarted = false)) := by
  refine ⟨rfl, rfl, rfl, rfl, rfl, rfl, rfl, rfl, ?_⟩
  rcases s with ⟨ph, ⟨⟨n0, sc0, c0, b0, sh0, inv0⟩, ⟨n1, sc1, c1, b1, sh1, inv1⟩⟩, act, sel, keys,
    pu, auc, cs, tl, ita, ts⟩
  simp only [resetGame, initialState, Teams.map, State.mk.injEq, Teams.mk.injEq, Team.mk.injEq,
    true_and, and_true]
  tauto

/-- C16 as stated fails: after a game was started with names, or with an auction open,
`resetGame` does not give back the initial state; the names and the auction survive. -/
theorem C16_reset_keeps_names_counterexample :
    resetGame (startGame initialState ["A", "B"]) ≠ initialState ∧
    (resetGame (startGame initialState ["A", "B"])).teams.team0.name = "A" ∧
    resetGame exampleAuctionState ≠ initialState ∧
    (resetGame exampleAuctionState).auction = exampleAuctionState.auction ∧
    (resetGame exampleAuctionState).auction ≠ none ∧
    (resetGame exampleBlockArmed).activePowerUp = some PowerUp.block ∧
    (resetGame (exampleChallengeState 3)).challengeScore = 3 := by
  decide

/-! ## Challenge start and countdown -/

/-- A table entry of 0 seconds is falsy, so `TIMER_CONFIG[basePoints] || 30` gives 30 for it. -/
theorem timerSeconds_zero_entry (TIMER_CONFIG : Int → Option Int) (basePoints : Int)
    (h : TIMER_CONFIG basePoints = some 0) : timerSeconds TIMER_CONFIG basePoints = 30 := by
  simp [timerSeconds, h]

/-- C17: with an auction `a`, `startChallenge` sets the countdown seconds to the (non-zero)
`TIMER_CONFIG` entry for `a.basePoints`, or to 30 when the table has no entry for it, resets
the challenge score to 0, sets the countdown to inactive and not started and the phase to
CHALLENGE, changing nothing else; with no auction it leaves the state unchanged. -/
theorem C17_startChallenge (TIMER_CONFIG : Int → Option Int) (s : State) (a : AuctionState)
    (ha : s.auction = some a) :
    (∀ v, TIMER_CONFIG a.basePoints = some v → v ≠ 0 →
      (startChallenge TIMER_CONFIG s).timeLeft = v) ∧
    (TIMER_CONFIG a.basePoints = none → (startChallenge TIMER_CONFIG s).timeLeft = 30) ∧
    (startChallenge TIMER_CONFIG s).challengeScore = 0 ∧
    (startChallenge TIMER_CONFIG s).isTimerActive = false ∧
    (startChallenge TIMER_CONFIG s).timerStarted = false ∧
    (startChallenge TIMER_CONFIG s).phase = GamePhase.CHALLENGE ∧
    startChallenge TIMER_CONFIG s =
      { s with
        timeLeft := (startChallenge TIMER_CONFIG s).timeLeft
        challengeScore := 0
        isTimerActive := false
        timerStarted := false
        phase := GamePhase.CHALLENGE } ∧
    (∀ s0 : State, s0.auction = none → startChallenge TIMER_CONFIG s0 = s0) := by
  refine ⟨?_, ?_, ?_, ?_, ?_, ?_, ?_, ?_⟩
  · intro v hv hne
    simp [startChallenge, ha, timerSeconds, hv, hne]
  · intro hv
    simp [startChallenge, ha, timerSeconds, hv]
  · simp [startChallenge, ha]
  · simp [startChallenge, ha]
  · simp [startChallenge, ha]
  · simp [startChallenge, ha]
  · simp [startChallenge, ha]
  · intro s0 h0
    simp [startChallenge, h0]

/-- C17 on an auction worth 200 points (45 seconds in the example table) and on one worth
100 points with an empty table (30 seconds). -/
theorem C17_startChallenge_witness :
    (startChallenge exampleTimerConfig (exampleChallengeState 3)).timeLeft = 45 ∧
    (startChallenge (fun _ => none) exampleAuctionState).timeLeft = 30 ∧
    (startChallenge exampleTimerConfig (exampleChallengeState 3)).challengeScore = 0 :=
  ⟨(C17_startChallenge exampleTimerConfig (exampleChallengeState 3) exampleAuctionBid3 rfl).1
      45 (by decide) (by decide),
    (C17_startChallenge (fun _ => none) exampleAuctionState
      { categoryId := "c1", categoryName := "N", basePoints := 100, points := 100,
        currentBid := 1, activeBidderIndex := 0, lastBidderIndex := none,
        withdrawnIndices := [], winnerIndex := none,
        missionText := "اذكر مجموعة من N المتعلقة بهذا التحدي",
        isDoubled := false, isBlocked := false, powerUpOwnerIndex := none,
        categoryOwnerIndex := 0 } (by decide)).2.1 rfl,
    (C17_startChallenge exampleTimerConfig (exampleChallengeState 3) exampleAuctionBid3
      rfl).2.2.1⟩

/-- A tick never takes a non-negative countdown below 0. -/
theorem tick_timeLeft_nonneg (s : State) (h : 0 ≤ s.timeLeft) : 0 ≤ (tick s).timeLeft := by
  unfold tick
  split
  · rename_i h1
    show 0 ≤ s.timeLeft - 1
    omega
  · split
    · exact h
    · exact h

/-- Any number of ticks keeps a non-negative countdown non-negative. -/
theorem tick_iterate_nonneg (n : Nat) (s : State) (h : 0 ≤ s.timeLeft) :
    0 ≤ (tick^[n] s).timeLeft := by
  induction n generalizing s with
  | zero => exact h
  | succ n ih =>
    rw [Function.iterate_succ_apply]
    exact ih (tick s) (tick_timeLeft_nonneg s h)

/-- C18: for `timeLeft >= 0`, a tick with the countdown active and `timeLeft > 0` decrements
`timeLeft` by exactly 1; active at `timeLeft = 0` it deactivates the countdown and keeps
`timeLeft`; inactive it changes nothing; so `timeLeft` is never below 0 after any number of
ticks. -/
theorem C18_tick (s : State) (n : Nat) (h : 0 ≤ s.timeLeft) :
    (s.isTimerActive = true → 0 < s.timeLeft →
      tick s = { s with timeLeft := s.timeLeft - 1 }) ∧
    (s.isTimerActive = true → s.timeLeft = 0 → tick s = { s with isTimerActive := false }) ∧
    (s.isTimerActive = false → tick s = s) ∧
    0 ≤ (tick^[n] s).timeLeft := by
  refine ⟨?_, ?_, ?_, tick_iterate_nonneg n s h⟩
  · intro ha hp
    simp [tick, ha, hp]
  · intro ha hz
    simp [tick, ha, hz]
  · intro hi
    simp [tick, hi]

/-- C18 on a countdown running at 2 seconds: one tick gives 1, and five ticks stop at 0. -/
theorem C18_tick_witness :
    tick (exampleCountdown 2) = exampleCountdown 1 ∧
    0 ≤ (tick^[5] (exampleCountdown 2)).timeLeft :=
  ⟨(C18_tick (exampleCountdown 2) 5 (by decide)).1 rfl (by decide),
    (C18_tick (exampleCountdown 2) 5 (by decide)).2.2.2⟩

/-! ## Finalization: bookkeeping -/

/-- C19: when `finalizeChallenge` takes effect the answered-cell set becomes the old set
plus the key built from the auction's category id, the engine's active team (lane 0 for
active team 0, lane 1 otherwise) and the auction's base points, whatever the auction's
bidder and category owner are; the active team flips, the auction record becomes empty and
the countdown becomes inactive and not started; without an auction or without a settled
winner the state is unchanged. -/
theorem C19_finalize_frame (s : State) (a : AuctionState) (w : Int)
    (ha : s.auction = some a) (hw : a.winnerIndex = some w) :
    (∀ k, k ∈ (finalizeChallenge s).answeredKeys ↔
      k ∈ s.answeredKeys ∨
        k = a.categoryId ++ "-" ++ toString (if s.activeTeamIndex = 0 then (0 : Int) else 1) ++
          "-" ++ toString a.basePoints) ∧
    ((s.activeTeamIndex = 0 ∨ s.activeTeamIndex = 1) →
      a.categoryId ++ "-" ++ toString s.activeTeamIndex ++ "-" ++ toString a.basePoints ∈
        (finalizeChallenge s).answeredKeys) ∧
    (finalizeChallenge s).activeTeamIndex = (if s.activeTeamIndex = 0 then 1 else 0) ∧
    (finalizeChallenge s).auction = none ∧
    (finalizeChallenge s).isTimerActive = false ∧
    (finalizeChallenge s).timerStarted = false ∧
    (∀ s0 : State, s0.auction = none → finalizeChallenge s0 = s0) ∧
    (∀ (s0 : State) (b : AuctionState), s0.auction = some b → b.winnerIndex = none →
      finalizeChallenge s0 = s0) := by
  have hkeys : (finalizeChallenge s).answeredKeys =
      setAdd s.answeredKeys (answeredKey a s.activeTeamIndex) := by
    simp only [finalizeChallenge, ha, hw]
  refine ⟨?_, ?_, ?_, ?_, ?_, ?_, ?_, ?_⟩
  · intro k
    rw [hkeys, mem_setAdd]
    rfl
  · intro h
    rw [hkeys, mem_setAdd]
    right
    rcases h with h | h <;> simp [answeredKey, h]
  · simp [finalizeChallenge, ha, hw, otherIndex]
  · simp [finalizeChallenge, ha, hw]
  · simp [finalizeChallenge, ha, hw]
  · simp [finalizeChallenge, ha, hw]
  · intro s0 h0
    simp [finalizeChallenge, h0]
  · intro s0 b h0 hb
    simp [finalizeChallenge, h0, hb]

/-- C19 on the challenge over `exampleAuctionBid3` (active bidder 1, active team 0): the
recorded key is lane 0, and the active team becomes 1. -/
theorem C19_finalize_frame_witness :
    "c1-0-200" ∈ (finalizeChallenge (exampleChallengeState 3)).answeredKeys ∧
    (finalizeChallenge (exampleChallengeState 3)).activeTeamIndex = 1 ∧
    (finalizeChallenge (exampleChallengeState 3)).auction = none :=
  ⟨(C19_finalize_frame (exampleChallengeState 3) exampleAuctionBid3 0 rfl rfl).2.1
      (Or.inl rfl),
    (C19_finalize_frame (exampleChallengeState 3) exampleAuctionBid3 0 rfl rfl).2.2.1,
    (C19_finalize_frame (exampleChallengeState 3) exampleAuctionBid3 0 rfl rfl).2.2.2.1⟩

end AuctionGame
